import Mathlib

/-!
# terraform-provider-customapi: token lifecycle and request proxy

A shallow embedding of `go-customapi/client` (`auth_token.go`, `config.go`,
`custom_api.go`, `utils.go`, `client.go`) and of the standard-library
routines those files call (`net/url` form encoding, `net/http` header keys,
`encoding/json` compaction, `time` arithmetic).

Conventions of the embedding

* A Go `string` / `[]byte` is a sequence of bytes: `GoString = List (Fin 256)`.
  The conversions `string(b)` and `[]byte(s)` are the identity.
* A Go `(T, error)` result of a function of the repository is a pair whose
  second component is `none` for a `nil` error and `some msg` for an error
  whose `Error()` text is `msg`; library calls return `Except`.
* A call that can panic returns an `Outcome`.
* `time.Time` and `time.Duration` are nanosecond counts. A `Duration` is a
  64-bit signed integer, so products are reduced by `wrapInt64`.
* Everything outside the process (environment variables, the clock, the HTTP
  transport, the JSON decoder for the token payload) is a field of `World`;
  the effects a call has on the outside are recorded in `Net`.
-/

namespace CustomAPI

/-! ## Strings -/

/-- One byte. -/
abbrev Byte := Fin 256

/-- Go `string` and `[]byte`: a finite sequence of bytes. -/
abbrev GoString := List Byte

/-- Bytes of an ASCII literal of the source text. -/
def lit (s : String) : GoString := s.data.map (fun c => Fin.ofNat c.toNat)

/-- Go `s < t` on strings: byte-wise lexicographic order. -/
def strLess : GoString → GoString → Bool
  | [], [] => false
  | [], _ :: _ => true
  | _ :: _, [] => false
  | a :: s, b :: t => if a.val < b.val then true else if b.val < a.val then false else strLess s t

/-- Decimal rendering of an integer, as `%d` prints it. -/
def fmtInt (i : Int) : GoString := lit (toString i)

/-- Go `strings.Contains(s, sub)` as a proposition: `sub` occurs in `s`. -/
def Contains (s sub : GoString) : Prop := ∃ pre post : GoString, s = pre ++ sub ++ post

/-! ## `net/url`: query escaping and form values -/

/-- Upper-case hexadecimal digit of a nibble (`"0123456789ABCDEF"[n]`). -/
def upperhex (n : Nat) : Byte :=
  if n < 10 then Fin.ofNat (48 + n) else Fin.ofNat (55 + n)

/-- Go `url.shouldEscape(c, encodeQueryComponent)`: every byte except the
unreserved ones (letters, digits, `-`, `_`, `.`, `~`) is escaped. -/
def shouldEscape (c : Byte) : Bool :=
  if (97 ≤ c.val ∧ c.val ≤ 122) ∨ (65 ≤ c.val ∧ c.val ≤ 90) ∨ (48 ≤ c.val ∧ c.val ≤ 57) then false
  else if c.val = 45 ∨ c.val = 95 ∨ c.val = 46 ∨ c.val = 126 then false
  else true

/-- Go `url.QueryEscape`: a space becomes `+`, every other byte that
`shouldEscape` becomes `%XX`, the rest is copied. -/
def QueryEscape : GoString → GoString
  | [] => []
  | c :: cs =>
    if shouldEscape c then
      if c.val = 32 then (43 : Byte) :: QueryEscape cs
      else (37 : Byte) :: upperhex (c.val / 16) :: upperhex (c.val % 16) :: QueryEscape cs
    else c :: QueryEscape cs

/-- Go `url.ishex`. -/
def ishex (c : Byte) : Bool :=
  (48 ≤ c.val ∧ c.val ≤ 57) ∨ (97 ≤ c.val ∧ c.val ≤ 102) ∨ (65 ≤ c.val ∧ c.val ≤ 70)

/-- Go `url.unhex`. -/
def unhex (c : Byte) : Nat :=
  if 48 ≤ c.val ∧ c.val ≤ 57 then c.val - 48
  else if 97 ≤ c.val ∧ c.val ≤ 102 then c.val - 97 + 10
  else if 65 ≤ c.val ∧ c.val ≤ 70 then c.val - 65 + 10
  else 0

/-- Go `url.EscapeError.Error()` for the offending fragment. -/
def EscapeError (frag : GoString) : GoString :=
  lit "invalid URL escape \"" ++ frag ++ lit "\""

/-- Go `url.QueryUnescape`: `%XX` becomes the byte `XX`, `+` becomes a space;
a `%` not followed by two hex digits is an `EscapeError` carrying at most
three bytes starting at that `%`. -/
def QueryUnescape : GoString → Except GoString GoString
  | [] => .ok []
  | c :: rest =>
    if c.val = 37 then
      match rest with
      | h1 :: h2 :: rest2 =>
        if ishex h1 && ishex h2 then
          match QueryUnescape rest2 with
          | .ok out => .ok (Fin.ofNat (unhex h1 * 16 + unhex h2) :: out)
          | .error e => .error e
        else .error (EscapeError (c :: (h1 :: h2 :: rest2).take 2))
      | short => .error (EscapeError (c :: short))
    else if c.val = 43 then
      match QueryUnescape rest with
      | .ok out => .ok ((32 : Byte) :: out)
      | .error e => .error e
    else
      match QueryUnescape rest with
      | .ok out => .ok (c :: out)
      | .error e => .error e

/-- Go `url.Values` (`map[string][]string`): an association list in which
every key occurs once. -/
abbrev Values := List (GoString × List GoString)

/-- Go `Values.Set`: `v[key] = []string{value}`. -/
def Values.Set : Values → GoString → GoString → Values
  | [], key, value => [(key, [value])]
  | (k, vs) :: rest, key, value =>
    if k = key then (k, [value]) :: rest else (k, vs) :: Values.Set rest key value

/-- Go `Values.Add`: `v[key] = append(v[key], value)`. -/
def Values.Add : Values → GoString → GoString → Values
  | [], key, value => [(key, [value])]
  | (k, vs) :: rest, key, value =>
    if k = key then (k, vs ++ [value]) :: rest else (k, vs) :: Values.Add rest key value

/-- Insert an entry into a list of entries sorted by key. -/
def insertEntry (e : GoString × List GoString) : Values → Values
  | [] => [e]
  | x :: rest => if strLess x.1 e.1 then x :: insertEntry e rest else e :: x :: rest

/-- Entries in ascending key order (`slices.Sort(keys)` followed by lookup). -/
def sortEntries : Values → Values
  | [] => []
  | e :: rest => insertEntry e (sortEntries rest)

/-- The `key=value` segments `Values.Encode` writes, in order. -/
def encodeSegments (v : Values) : List GoString :=
  (sortEntries v).flatMap (fun e => e.2.map (fun x => QueryEscape e.1 ++ (61 : Byte) :: QueryEscape x))

/-- Join segments with `&`. -/
def joinAmp : List GoString → GoString
  | [] => []
  | [s] => s
  | s :: t :: rest => s ++ (38 : Byte) :: joinAmp (t :: rest)

/-- Go `Values.Encode`: `key=value` pairs, both query-escaped, joined by `&`,
sorted by key. -/
def Values.Encode (v : Values) : GoString := joinAmp (encodeSegments v)

/-- Go `strings.Cut(s, sep)` for a one-byte separator: the text before the
first separator, the text after it, and whether it was found. -/
def cutByte (sep : Byte) : GoString → GoString × GoString × Bool
  | [] => ([], [], false)
  | c :: cs =>
    if c = sep then ([], cs, true)
    else ((c :: (cutByte sep cs).1), (cutByte sep cs).2.1, (cutByte sep cs).2.2)

/-- The successive pieces `strings.Cut(query, "&")` peels off a query. -/
def splitByte (sep : Byte) : GoString → List GoString
  | [] => [[]]
  | c :: cs =>
    if c = sep then [] :: splitByte sep cs
    else
      match splitByte sep cs with
      | [] => [[c]]
      | seg :: segs => (c :: seg) :: segs

/-- One turn of the loop of Go `url.parseQuery` on the piece `seg`. -/
def parseSegment (m : Values) (err : Option GoString) (seg : GoString) :
    Values × Option GoString :=
  if seg.any (fun c => c.val = 59) then (m, some (lit "invalid semicolon separator in query"))
  else if seg = [] then (m, err)
  else
    match QueryUnescape (cutByte 61 seg).1 with
    | .error e1 => (m, if err = none then some e1 else err)
    | .ok key =>
      match QueryUnescape (cutByte 61 seg).2.1 with
      | .error e1 => (m, if err = none then some e1 else err)
      | .ok value => (m.Add key value, err)

/-- Go `url.ParseQuery`: the decoded map and the first error met. -/
def ParseQuery (query : GoString) : Values × Option GoString :=
  (splitByte 38 query).foldl (fun acc seg => parseSegment acc.1 acc.2 seg) ([], none)

/-! ## `net/http`: header maps, requests, responses -/

/-- Go `http.Header` (`map[string][]string`). -/
abbrev Header := Values

/-- Go `httpguts`/`textproto.validHeaderFieldByte`: the RFC 7230 token bytes. -/
def validHeaderFieldByte (c : Byte) : Bool :=
  (97 ≤ c.val ∧ c.val ≤ 122) ∨ (65 ≤ c.val ∧ c.val ≤ 90) ∨ (48 ≤ c.val ∧ c.val ≤ 57) ∨
  c.val = 33 ∨ c.val = 35 ∨ c.val = 36 ∨ c.val = 37 ∨ c.val = 38 ∨ c.val = 39 ∨ c.val = 42 ∨
  c.val = 43 ∨ c.val = 45 ∨ c.val = 46 ∨ c.val = 94 ∨ c.val = 95 ∨ c.val = 96 ∨ c.val = 124 ∨
  c.val = 126

/-- The rewriting loop of `textproto.canonicalMIMEHeaderKey`: upper-case the
first letter and every letter after a `-`, lower-case the others. -/
def canonLoop : Bool → GoString → GoString
  | _, [] => []
  | upper, c :: cs =>
    let c1 : Byte :=
      if upper ∧ 97 ≤ c.val ∧ c.val ≤ 122 then Fin.ofNat (c.val - 32)
      else if ¬ upper ∧ 65 ≤ c.val ∧ c.val ≤ 90 then Fin.ofNat (c.val + 32)
      else c
    c1 :: canonLoop (c1.val = 45) cs

/-- Go `textproto.CanonicalMIMEHeaderKey`: a key holding a byte that is not a
token byte is returned unchanged. -/
def CanonicalMIMEHeaderKey (s : GoString) : GoString :=
  if s.all validHeaderFieldByte then canonLoop true s else s

/-- Go `Header.Set`: `h[CanonicalMIMEHeaderKey(key)] = []string{value}`. -/
def Header.Set (h : Header) (key value : GoString) : Header :=
  Values.Set h (CanonicalMIMEHeaderKey key) value

/-- Go `Header.Get`-style lookup of the values stored under an exact key. -/
def Header.lookup : Header → GoString → Option (List GoString)
  | [], _ => none
  | (k, vs) :: rest, key => if k = key then some vs else Header.lookup rest key

/-- The parts of a Go `*http.Request` the client code sets: method, URL,
header map and body (`none` for a `nil` body reader). -/
structure HttpRequest where
  Method : GoString
  URL : GoString
  Header : Header
  Body : Option GoString
deriving DecidableEq

/-- A response body stream as `io.ReadAll` sees it: the bytes delivered and
the error (if any) that ended the stream instead of end-of-file. -/
structure ResponseBody where
  data : GoString
  readErr : Option GoString
deriving DecidableEq

/-- Go `io.ReadAll(resp.Body)`. -/
def ReadAll (b : ResponseBody) : GoString × Option GoString := (b.data, b.readErr)

/-- The parts of a Go `*http.Response` the client code reads. -/
structure HttpResponse where
  StatusCode : Int
  Header : Header
  Body : ResponseBody
deriving DecidableEq

/-! ## `encoding/json`: the scanner and `Compact`, as `json.Marshal` applies
them to a `json.RawMessage` -/

/-- Lower-case hexadecimal digit of a nibble (`"0123456789abcdef"[n]`). -/
def lowerhex (n : Nat) : Byte :=
  if n < 10 then Fin.ofNat (48 + n) else Fin.ofNat (87 + n)

/-- Go `json.quoteChar`: the byte as it is shown in a syntax error. -/
def quoteChar (c : Byte) : GoString :=
  if c.val = 39 then lit "\x27\\\x27\x27"
  else if c.val = 34 then lit "\x27\"\x27"
  else if c.val = 92 then lit "\x27\\\\\x27"
  else if 32 ≤ c.val ∧ c.val ≤ 126 then (39 : Byte) :: c :: [(39 : Byte)]
  else if 161 ≤ c.val ∧ c.val ≠ 173 then
    (39 : Byte) :: Fin.ofNat (192 + c.val / 64) :: Fin.ofNat (128 + c.val % 64) :: [(39 : Byte)]
  else if c.val = 7 then lit "\x27\\a\x27"
  else if c.val = 8 then lit "\x27\\b\x27"
  else if c.val = 12 then lit "\x27\\f\x27"
  else if c.val = 10 then lit "\x27\\n\x27"
  else if c.val = 13 then lit "\x27\\r\x27"
  else if c.val = 9 then lit "\x27\\t\x27"
  else if c.val = 11 then lit "\x27\\v\x27"
  else if c.val < 128 then
    lit "\x27\\x" ++ [lowerhex (c.val / 16), lowerhex (c.val % 16)] ++ lit "\x27"
  else lit "\x27\\u00" ++ [lowerhex (c.val / 16), lowerhex (c.val % 16)] ++ lit "\x27"

/-- The `step` functions of the scanner (`stateBeginValue`, ...). -/
inductive ScanState where
  | beginValueOrEmpty | beginValue | beginStringOrEmpty | beginString | endValue | endTop
  | inString | inStringEsc | inStringEscU | inStringEscU1 | inStringEscU12 | inStringEscU123
  | neg | one | zero | dot | dot0 | e | eSign | e0
  | t | tr | tru | f | fa | fal | fals | n | nu | nul
  | error
deriving DecidableEq

/-- Entries of the scanner's `parseState` stack. -/
inductive ParseState where
  | parseObjectKey | parseObjectValue | parseArrayValue
deriving DecidableEq

/-- Return codes of a scanner step, in the order of their Go constants
(`scanContinue = 0`, ..., `scanError = 11`). -/
inductive ScanCode where
  | scanContinue | scanBeginLiteral | scanBeginObject | scanObjectKey | scanObjectValue
  | scanEndObject | scanBeginArray | scanArrayValue | scanEndArray | scanSkipSpace | scanEnd
  | scanError
deriving DecidableEq

/-- Go `json.scanner`; the innermost entry of `parseState` is the head of the
list. -/
structure Scanner where
  step : ScanState
  endTop : Bool
  parseState : List ParseState
  err : Option GoString
deriving DecidableEq

/-- Go `scanner.reset`. -/
def Scanner.reset : Scanner :=
  { step := .beginValue, endTop := false, parseState := [], err := none }

/-- Go `json.maxNestingDepth`. -/
def maxNestingDepth : Nat := 10000

/-- Go `json.isSpace`. -/
def isSpace (c : Byte) : Bool := c.val = 32 ∨ c.val = 9 ∨ c.val = 13 ∨ c.val = 10

/-- Go `scanner.error`. -/
def Scanner.error (s : Scanner) (c : Byte) (context : GoString) : ScanCode × Scanner :=
  (.scanError, { s with step := .error,
                        err := some (lit "invalid character " ++ quoteChar c ++ lit " " ++ context) })

/-- Go `scanner.pushParseState`. -/
def Scanner.pushParseState (s : Scanner) (c : Byte) (newParseState : ParseState)
    (successState : ScanCode) : ScanCode × Scanner :=
  let s1 := { s with parseState := newParseState :: s.parseState }
  if s1.parseState.length ≤ maxNestingDepth then (successState, s1)
  else s1.error c (lit "exceeded max depth")

/-- Go `scanner.popParseState`. -/
def Scanner.popParseState (s : Scanner) : Scanner :=
  let rest := s.parseState.tail
  if rest.length = 0 then { s with parseState := rest, step := .endTop, endTop := true }
  else { s with parseState := rest, step := .endValue }

/-- Go `stateEndTop`. -/
def stateEndTop (s : Scanner) (c : Byte) : ScanCode × Scanner :=
  if ¬ isSpace c then (.scanEnd, (s.error c (lit "after top-level value")).2)
  else (.scanEnd, s)

/-- Go `stateEndValue`. -/
def stateEndValue (s : Scanner) (c : Byte) : ScanCode × Scanner :=
  match s.parseState with
  | [] => stateEndTop { s with step := .endTop, endTop := true } c
  | ps :: rest =>
    if isSpace c then (.scanSkipSpace, { s with step := .endValue })
    else
      match ps with
      | .parseObjectKey =>
        if c.val = 58 then
          (.scanObjectKey, { s with parseState := .parseObjectValue :: rest, step := .beginValue })
        else s.error c (lit "after object key")
      | .parseObjectValue =>
        if c.val = 44 then
          (.scanObjectValue, { s with parseState := .parseObjectKey :: rest, step := .beginString })
        else if c.val = 125 then (.scanEndObject, s.popParseState)
        else s.error c (lit "after object key:value pair")
      | .parseArrayValue =>
        if c.val = 44 then (.scanArrayValue, { s with step := .beginValue })
        else if c.val = 93 then (.scanEndArray, s.popParseState)
        else s.error c (lit "after array element")

/-- Go `stateBeginValue`. -/
def stateBeginValue (s : Scanner) (c : Byte) : ScanCode × Scanner :=
  if isSpace c then (.scanSkipSpace, s)
  else if c.val = 123 then
    Scanner.pushParseState { s with step := .beginStringOrEmpty } c .parseObjectKey .scanBeginObject
  else if c.val = 91 then
    Scanner.pushParseState { s with step := .beginValueOrEmpty } c .parseArrayValue .scanBeginArray
  else if c.val = 34 then (.scanBeginLiteral, { s with step := .inString })
  else if c.val = 45 then (.scanBeginLiteral, { s with step := .neg })
  else if c.val = 48 then (.scanBeginLiteral, { s with step := .zero })
  else if c.val = 116 then (.scanBeginLiteral, { s with step := .t })
  else if c.val = 102 then (.scanBeginLiteral, { s with step := .f })
  else if c.val = 110 then (.scanBeginLiteral, { s with step := .n })
  else if 49 ≤ c.val ∧ c.val ≤ 57 then (.scanBeginLiteral, { s with step := .one })
  else s.error c (lit "looking for beginning of value")

/-- Go `stateBeginString`. -/
def stateBeginString (s : Scanner) (c : Byte) : ScanCode × Scanner :=
  if isSpace c then (.scanSkipSpace, s)
  else if c.val = 34 then (.scanBeginLiteral, { s with step := .inString })
  else s.error c (lit "looking for beginning of object key string")

/-- Go `state0`. -/
def state0 (s : Scanner) (c : Byte) : ScanCode × Scanner :=
  if c.val = 46 then (.scanContinue, { s with step := .dot })
  else if c.val = 101 ∨ c.val = 69 then (.scanContinue, { s with step := .e })
  else stateEndValue s c

/-- Go `stateESign`. -/
def stateESign (s : Scanner) (c : Byte) : ScanCode × Scanner :=
  if 48 ≤ c.val ∧ c.val ≤ 57 then (.scanContinue, { s with step := .e0 })
  else s.error c (lit "in exponent of numeric literal")

/-- A step that accepts exactly the byte `want`, moving to `next`. -/
def expectByte (s : Scanner) (c : Byte) (want : Nat) (next : ScanState) (context : GoString) :
    ScanCode × Scanner :=
  if c.val = want then (.scanContinue, { s with step := next }) else s.error c context

/-- A step of the `\u` escape that accepts one hexadecimal digit. -/
def expectHex (s : Scanner) (c : Byte) (next : ScanState) : ScanCode × Scanner :=
  if (48 ≤ c.val ∧ c.val ≤ 57) ∨ (97 ≤ c.val ∧ c.val ≤ 102) ∨ (65 ≤ c.val ∧ c.val ≤ 70) then
    (.scanContinue, { s with step := next })
  else s.error c (lit "in \\u hexadecimal character escape")

/-- Go `s.step(s, c)`: dispatch on the current step function. -/
def Scanner.stepByte (s : Scanner) (c : Byte) : ScanCode × Scanner :=
  match s.step with
  | .beginValueOrEmpty =>
    if isSpace c then (.scanSkipSpace, s)
    else if c.val = 93 then stateEndValue s c
    else stateBeginValue s c
  | .beginValue => stateBeginValue s c
  | .beginStringOrEmpty =>
    if isSpace c then (.scanSkipSpace, s)
    else if c.val = 125 then
      stateEndValue { s with parseState := .parseObjectValue :: s.parseState.tail } c
    else stateBeginString s c
  | .beginString => stateBeginString s c
  | .endValue => stateEndValue s c
  | .endTop => stateEndTop s c
  | .inString =>
    if c.val = 34 then (.scanContinue, { s with step := .endValue })
    else if c.val = 92 then (.scanContinue, { s with step := .inStringEsc })
    else if c.val < 32 then s.error c (lit "in string literal")
    else (.scanContinue, s)
  | .inStringEsc =>
    if c.val = 98 ∨ c.val = 102 ∨ c.val = 110 ∨ c.val = 114 ∨ c.val = 116 ∨ c.val = 92 ∨
        c.val = 47 ∨ c.val = 34 then (.scanContinue, { s with step := .inString })
    else if c.val = 117 then (.scanContinue, { s with step := .inStringEscU })
    else s.error c (lit "in string escape code")
  | .inStringEscU => expectHex s c .inStringEscU1
  | .inStringEscU1 => expectHex s c .inStringEscU12
  | .inStringEscU12 => expectHex s c .inStringEscU123
  | .inStringEscU123 => expectHex s c .inString
  | .neg =>
    if c.val = 48 then (.scanContinue, { s with step := .zero })
    else if 49 ≤ c.val ∧ c.val ≤ 57 then (.scanContinue, { s with step := .one })
    else s.error c (lit "in numeric literal")
  | .one =>
    if 48 ≤ c.val ∧ c.val ≤ 57 then (.scanContinue, { s with step := .one }) else state0 s c
  | .zero => state0 s c
  | .dot =>
    if 48 ≤ c.val ∧ c.val ≤ 57 then (.scanContinue, { s with step := .dot0 })
    else s.error c (lit "after decimal point in numeric literal")
  | .dot0 =>
    if 48 ≤ c.val ∧ c.val ≤ 57 then (.scanContinue, s)
    else if c.val = 101 ∨ c.val = 69 then (.scanContinue, { s with step := .e })
    else stateEndValue s c
  | .e =>
    if c.val = 43 ∨ c.val = 45 then (.scanContinue, { s with step := .eSign })
    else stateESign s c
  | .eSign => stateESign s c
  | .e0 => if 48 ≤ c.val ∧ c.val ≤ 57 then (.scanContinue, s) else stateEndValue s c
  | .t => expectByte s c 114 .tr (lit "in literal true (expecting \x27r\x27)")
  | .tr => expectByte s c 117 .tru (lit "in literal true (expecting \x27u\x27)")
  | .tru => expectByte s c 101 .endValue (lit "in literal true (expecting \x27e\x27)")
  | .f => expectByte s c 97 .fa (lit "in literal false (expecting \x27a\x27)")
  | .fa => expectByte s c 108 .fal (lit "in literal false (expecting \x27l\x27)")
  | .fal => expectByte s c 115 .fals (lit "in literal false (expecting \x27s\x27)")
  | .fals => expectByte s c 101 .endValue (lit "in literal false (expecting \x27e\x27)")
  | .n => expectByte s c 117 .nu (lit "in literal null (expecting \x27u\x27)")
  | .nu => expectByte s c 108 .nul (lit "in literal null (expecting \x27l\x27)")
  | .nul => expectByte s c 108 .endValue (lit "in literal null (expecting \x27l\x27)")
  | .error => (.scanError, s)

/-- Go `scanner.eof`. -/
def Scanner.eof (s : Scanner) : ScanCode × Scanner :=
  if s.err ≠ none then (.scanError, s)
  else if s.endTop then (.scanEnd, s)
  else
    let s1 := (s.stepByte 32).2
    if s1.endTop then (.scanEnd, s1)
    else if s1.err = none then
      (.scanError, { s1 with err := some (lit "unexpected end of JSON input") })
    else (.scanError, s1)

/-- Go `src[lo:hi]`. -/
def slice (src : GoString) (lo hi : Nat) : GoString := (src.drop lo).take (hi - lo)

/-- The working variables of the loop of `appendCompact`. -/
structure CompactState where
  dst : GoString
  start : Nat
  scan : Scanner
  stopped : Bool
deriving DecidableEq

/-- One turn of the loop of Go `json.appendCompact` at index `i`, byte `c`. -/
def compactStep (src : GoString) (escape : Bool) (st : CompactState) (i : Nat) (c : Byte) :
    CompactState :=
  let st1 : CompactState :=
    if escape ∧ (c.val = 60 ∨ c.val = 62 ∨ c.val = 38) then
      { st with
        dst := (if st.start < i then st.dst ++ slice src st.start i else st.dst) ++
          [(92 : Byte), 117, 48, 48, lowerhex (c.val / 16), lowerhex (c.val % 16)]
        start := i + 1 }
    else st
  let st2 : CompactState :=
    if escape ∧ c.val = 226 ∧ i + 2 < src.length ∧ (src.getD (i + 1) 0).val = 128 ∧
        ((src.getD (i + 2) 0).val = 168 ∨ (src.getD (i + 2) 0).val = 169) then
      { st1 with
        dst := (if st1.start < i then st1.dst ++ slice src st1.start i else st1.dst) ++
          [(92 : Byte), 117, 50, 48, 50, lowerhex ((src.getD (i + 2) 0).val % 16)]
        start := i + 3 }
    else st1
  let r := st2.scan.stepByte c
  if r.1 = .scanSkipSpace ∨ r.1 = .scanEnd ∨ r.1 = .scanError then
    if r.1 = .scanError then { st2 with scan := r.2, stopped := true }
    else
      { st2 with
        dst := if st2.start < i then st2.dst ++ slice src st2.start i else st2.dst
        start := i + 1
        scan := r.2 }
  else { st2 with scan := r.2 }

/-- The loop of `appendCompact` over the bytes from index `i` on; a scan error
leaves the loop (`break`). -/
def compactLoop (src : GoString) (escape : Bool) : CompactState → Nat → GoString → CompactState
  | st, _, [] => st
  | st, i, c :: rest =>
    let st1 := compactStep src escape st i c
    if st1.stopped then st1 else compactLoop src escape st1 (i + 1) rest

/-- Go `json.appendCompact(nil, src, escape)`: `src` without insignificant
space, with `<`, `>`, `&`, U+2028 and U+2029 written as `\u` escapes when
`escape` is set; a syntax error when `src` is not one JSON value. -/
def appendCompact (src : GoString) (escape : Bool) : Except GoString GoString :=
  let st := compactLoop src escape { dst := [], start := 0, scan := Scanner.reset, stopped := false }
    0 src
  let r := st.scan.eof
  if r.1 = .scanError then .error (r.2.err.getD [])
  else if st.start < src.length then .ok (st.dst ++ slice src st.start src.length)
  else .ok st.dst

/-- Go `json.Marshal(m)` for a non-nil `m` of type `json.RawMessage`:
`MarshalJSON` returns `m` itself and the encoder compacts it with HTML
escaping. -/
def marshalRawMessage (m : GoString) : Except GoString GoString :=
  match appendCompact m true with
  | .ok out => .ok out
  | .error e => .error (lit "json: error calling MarshalJSON for type json.RawMessage: " ++ e)

/-! ## `time` -/

/-- Go `time.Time`: an instant, in nanoseconds on one unbounded timeline whose
origin is the zero value `time.Time{}`. -/
abbrev Time := Int

/-- Go `time.Duration`: a signed 64-bit count of nanoseconds. -/
abbrev Duration := Int

/-- Reduction of an integer to the signed 64-bit range (two's complement). -/
def wrapInt64 (x : Int) : Int := (x + 2 ^ 63) % 2 ^ 64 - 2 ^ 63

/-- Go `time.Second`. -/
def Second : Duration := 1000000000

/-- Go `a * b` on `time.Duration`. -/
def Duration.mul (a b : Duration) : Duration := wrapInt64 (a * b)

/-- Go `t.Add(d)`. -/
def Time.Add (t : Time) (d : Duration) : Time := t + d

/-- Go `t.Before(u)`. -/
def Time.Before (t u : Time) : Bool := decide (t < u)

/-- Go `time.Time{}`. -/
def Time.zero : Time := 0

/-- Largest value of a Go `int` on a 64-bit platform. -/
def maxInt : Int := 2 ^ 63 - 1

/-- Smallest value of a Go `int` on a 64-bit platform. -/
def minInt : Int := -(2 ^ 63)

/-! ## `config.go` and the types of `auth_token.go` -/

/-- `AuthConfig` of `auth_token.go`. -/
structure AuthConfig where
  Username : GoString
  Password : GoString
  Environment : GoString
  AuthToken : GoString
  BaseURL : GoString
deriving DecidableEq

/-- `TokenResponse` of `auth_token.go`. -/
structure TokenResponse where
  AccessToken : GoString
  TokenType : GoString
  ExpiresIn : Int
  Scope : GoString
deriving DecidableEq

/-- `Config` of `config.go`. -/
structure Config where
  BaseURL : GoString
  AuthURL : GoString
  Environment : GoString
  DefaultOrgID : GoString
  ClientID : GoString
  Audience : GoString
  Username : GoString
  Password : GoString
  AuthToken : GoString
deriving DecidableEq

/-- Everything outside the process that the client code consults. -/
structure World where
  /-- `os.Getenv` as seen once `godotenv.Load` has run. -/
  getenv : GoString → GoString
  /-- The result of the `n`-th call of `time.Now()`, counted from 0. -/
  now : Nat → Time
  /-- The error of `http.NewRequest(method, url, body)`, if it reports one
  (invalid method, unparsable URL, nil context). -/
  newRequestErr : GoString → GoString → Option GoString
  /-- The result of `httpClient.Do(req)` for the `n`-th request issued. -/
  roundTrip : Nat → HttpRequest → Except GoString HttpResponse
  /-- The result of `json.NewDecoder(body).Decode(&tokenResp)` started from a
  zero `TokenResponse`. -/
  decodeToken : ResponseBody → Except GoString TokenResponse

/-- What the process has done to the outside so far. -/
structure Net where
  /-- Number of `time.Now()` readings taken. -/
  ticks : Nat
  /-- Requests handed to `httpClient.Do`, oldest first. -/
  sent : List HttpRequest
deriving DecidableEq

/-- Go `time.Now()`: the next reading of the clock. -/
def timeNow (w : World) (n : Net) : Time × Net := (w.now n.ticks, { n with ticks := n.ticks + 1 })

/-- Go `httpClient.Do(req)`: the request is issued and the transport answers. -/
def Do (w : World) (n : Net) (req : HttpRequest) : Except GoString HttpResponse × Net :=
  (w.roundTrip n.sent.length req, { n with sent := n.sent ++ [req] })

/-- Go `http.NewRequest` / `http.NewRequestWithContext`: an empty method
stands for `GET`; the result is a request with an empty header map, or the
error the library reports. -/
def NewRequest (w : World) (method url : GoString) (body : Option GoString) :
    Except GoString HttpRequest :=
  let method := if method = [] then lit "GET" else method
  match w.newRequestErr method url with
  | some err => .error err
  | none => .ok { Method := method, URL := url, Header := [], Body := body }

/-- `getEnvOrDefault` of `config.go`. -/
def getEnvOrDefault (w : World) (key : GoString) : GoString := w.getenv key

/-- `LoadConfig` of `config.go`; its error is always `nil`. -/
def LoadConfig (w : World) : Except GoString Config :=
  .ok {
    BaseURL := getEnvOrDefault w (lit "CUSTOMAPI_BASE_URL")
    AuthURL := getEnvOrDefault w (lit "CUSTOMAPI_AUTH_URL")
    Environment := getEnvOrDefault w (lit "CUSTOMAPI_ENVIRONMENT")
    DefaultOrgID := getEnvOrDefault w (lit "CUSTOMAPI_ORG_ID")
    ClientID := getEnvOrDefault w (lit "CUSTOMAPI_CLIENT_ID")
    Audience := getEnvOrDefault w (lit "CUSTOMAPI_AUDIENCE")
    Username := getEnvOrDefault w (lit "CUSTOMAPI_USERNAME")
    Password := getEnvOrDefault w (lit "CUSTOMAPI_PASSWORD")
    AuthToken := getEnvOrDefault w (lit "CUSTOMAPI_AUTH_TOKEN") }

/-- `Config.GetAuthConfig` of `config.go`. -/
def Config.GetAuthConfig (c : Config) : AuthConfig :=
  { Username := c.Username, Password := c.Password, AuthToken := c.AuthToken,
    Environment := c.Environment, BaseURL := c.AuthURL }

/-! ## `auth_token.go` -/

/-- `AuthClient` of `auth_token.go` (the HTTP client it owns is the transport
of `World`). -/
structure AuthClient where
  config : AuthConfig
  token : GoString
  expiresAt : Time
deriving DecidableEq

/-- `NewAuthClient`: empty token, zero expiry. -/
def NewAuthClient (config : AuthConfig) : AuthClient :=
  { config := config, token := [], expiresAt := Time.zero }

/-- `AuthClient.getAuthURL`. -/
def getAuthURL (ac : AuthClient) : GoString :=
  let baseURL :=
    if ac.config.BaseURL = [] then
      if ac.config.Environment = lit "qa" then lit "https://pace-app-qa.us.auth0.com"
      else if ac.config.Environment = lit "staging" then lit "https://pace-app-staging.us.auth0.com"
      else if ac.config.Environment = lit "prod" then lit "https://pace-app.us.auth0.com"
      else lit "https://pace-app-qa.us.auth0.com"
    else ac.config.BaseURL
  baseURL ++ lit "/oauth/token"

/-- The form `authenticateWithCredentials` fills in, given the loaded
configuration. -/
def authForm (ac : AuthClient) (config : Config) : Values :=
  let formData : Values := []
  let formData := formData.Set (lit "grant_type") (lit "password")
  let formData := formData.Set (lit "username") ac.config.Username
  let formData := formData.Set (lit "password") ac.config.Password
  let formData := formData.Set (lit "scope") (lit "openid profile email")
  let formData := formData.Set (lit "audience") config.Audience
  formData.Set (lit "client_id") config.ClientID

/-- The request `authenticateWithCredentials` builds (lines 57-78): a POST of
the encoded form to `getAuthURL()` with the two headers set, or the error
that ends the function before any request exists. -/
def authRequest (w : World) (ac : AuthClient) : Except GoString HttpRequest :=
  let authURL := getAuthURL ac
  match LoadConfig w with
  | .error err => .error (lit "failed to load config: " ++ err)
  | .ok config =>
    match NewRequest w (lit "POST") authURL (some (authForm ac config).Encode) with
    | .error err => .error (lit "failed to create auth request: " ++ err)
    | .ok req =>
      let req := { req with Header := req.Header.Set (lit "Content-Type") (lit "application/x-www-form-urlencoded") }
      let req := { req with Header := req.Header.Set (lit "Accept") (lit "application/json") }
      .ok req

/-- `AuthClient.authenticateWithCredentials`. -/
def authenticateWithCredentials (w : World) (ac : AuthClient) (n : Net) :
    (GoString × Option GoString) × AuthClient × Net :=
  match authRequest w ac with
  | .error err => (([], some err), ac, n)
  | .ok req =>
    match Do w n req with
    | (.error err, n1) => (([], some (lit "failed to execute auth request: " ++ err)), ac, n1)
    | (.ok resp, n1) =>
      if resp.StatusCode ≠ 200 then
        let body := (ReadAll resp.Body).1
        (([], some (lit "authentication failed with status: " ++ fmtInt resp.StatusCode ++
            lit ", body: " ++ body)), ac, n1)
      else
        match w.decodeToken resp.Body with
        | .error err => (([], some (lit "failed to decode token response: " ++ err)), ac, n1)
        | .ok tokenResp =>
          let (now, n2) := timeNow w n1
          let ac1 := { ac with
            token := tokenResp.AccessToken
            expiresAt := now.Add (Duration.mul tokenResp.ExpiresIn Second) }
          ((ac1.token, none), ac1, n2)

/-- `AuthClient.GetToken`. -/
def GetToken (w : World) (ac : AuthClient) (n : Net) :
    (GoString × Option GoString) × AuthClient × Net :=
  if ac.config.AuthToken ≠ [] then ((ac.config.AuthToken, none), ac, n)
  else if ac.token ≠ [] then
    let (now, n1) := timeNow w n
    if now.Before ac.expiresAt then ((ac.token, none), ac, n1)
    else authenticateWithCredentials w ac n1
  else authenticateWithCredentials w ac n

/-- `AuthClient.IsTokenValid`: the verdict and the effect on the outside (a
clock reading when the token is non-empty). -/
def IsTokenValid (w : World) (ac : AuthClient) (n : Net) : Bool × AuthClient × Net :=
  if ac.token ≠ [] then
    let (now, n1) := timeNow w n
    (now.Before ac.expiresAt, ac, n1)
  else (false, ac, n)

/-- `AuthClient.RefreshToken`. -/
def RefreshToken (w : World) (ac : AuthClient) (n : Net) : Option GoString × AuthClient × Net :=
  let ac1 := { ac with token := [], expiresAt := Time.zero }
  match GetToken w ac1 n with
  | ((_, err), ac2, n1) => (err, ac2, n1)

/-! ## `types/custom_api.go`, `client.go`, `utils.go`, `custom_api.go` -/

/-- `types.CustomAPIRequest`. The two maps are listed in the order in which
`range` visits them; `Body` of length 0 stands for both a nil and an empty
`json.RawMessage`. -/
structure CustomAPIRequest where
  Method : GoString
  URL : GoString
  Headers : List (GoString × GoString)
  Body : GoString
  QueryParams : List (GoString × GoString)
deriving DecidableEq

/-- `types.CustomAPIResponse`. -/
structure CustomAPIResponse where
  StatusCode : Int
  Headers : List (GoString × GoString)
  Body : GoString
  Success : Bool
  Error : GoString
deriving DecidableEq

/-- `Client` of `utils.go` (the HTTP client it owns is the transport of
`World`). -/
structure Client where
  token : GoString
  baseURL : GoString
  authClient : AuthClient
deriving DecidableEq

/-- `NewClient` of `client.go`. -/
def NewClient (authConfig : AuthConfig) (baseURL : GoString) : Client :=
  { token := [], baseURL := baseURL, authClient := NewAuthClient authConfig }

/-- `Client.GetBaseURL`. -/
def Client.GetBaseURL (c : Client) : GoString := c.baseURL

/-- How a call ends: it returns a value, or it panics. -/
inductive Outcome (α : Type) where
  | returned (a : α)
  | panicked (msg : GoString)
deriving DecidableEq

/-- `createRequest` of `utils.go`, for `data` that is `nil` (`none`) or a
`json.RawMessage`. In the branch with data the error of `http.NewRequest` is
assigned to the `err` declared by `encodedData, err := json.Marshal(data)`, so
the check after the branch sees a nil error and `req.WithContext` is called on
the nil request. -/
def createRequest (w : World) (method url : GoString) (data : Option GoString) :
    Outcome (Except GoString HttpRequest) :=
  match data with
  | some d =>
    match marshalRawMessage d with
    | .error err => .returned (.error (lit "failed to marshal request data: " ++ err))
    | .ok encodedData =>
      match NewRequest w method url (some encodedData) with
      | .error _ => .panicked (lit "runtime error: invalid memory address or nil pointer dereference")
      | .ok req => .returned (.ok req)
  | none =>
    match NewRequest w method url none with
    | .error err => .returned (.error (lit "failed to create request: " ++ err))
    | .ok req => .returned (.ok req)

/-- `respToString` of `utils.go`. -/
def respToString (resp : HttpResponse) : GoString :=
  match ReadAll resp.Body with
  | (_, some err) => lit "Failed to read response body: " ++ err
  | (decodedData, none) => decodedData

/-- `CustomAPIClient.buildURL`. -/
def buildURL (w : World) (c : Client) (endpoint : GoString)
    (queryParams : List (GoString × GoString)) : Outcome GoString :=
  let resolved : Outcome GoString :=
    if c.GetBaseURL = [] then
      match LoadConfig w with
      | .error _ => .panicked (lit "CUSTOMAPI_BASE_URL environment variable is required")
      | .ok config =>
        if config.BaseURL = [] then
          .panicked (lit "CUSTOMAPI_BASE_URL environment variable is required")
        else .returned config.BaseURL
    else .returned c.GetBaseURL
  match resolved with
  | .panicked msg => .panicked msg
  | .returned baseURL =>
    let fullURL := baseURL ++ endpoint
    if queryParams.length > 0 then
      let params : Values := queryParams.foldl (fun p kv => p.Add kv.1 kv.2) []
      .returned (fullURL ++ lit "?" ++ params.Encode)
    else .returned fullURL

/-- `CustomAPIClient.setHeaders`. -/
def setHeaders (req : HttpRequest) (customHeaders : List (GoString × GoString))
    (token : GoString) : HttpRequest :=
  let h := req.Header.Set (lit "Authorization") (lit "Bearer " ++ token)
  let h := h.Set (lit "Content-Type") (lit "application/json")
  let h := h.Set (lit "Accept") (lit "application/json, text/plain, */*")
  let h := h.Set (lit "User-Agent") (lit "Terraform-Provider-CustomAPI/1.0")
  { req with Header := customHeaders.foldl (fun h kv => Header.Set h kv.1 kv.2) h }

/-- Lines 55-72 of `MakeRequest`: the envelope built from a response. -/
def buildResponse (resp : HttpResponse) : CustomAPIResponse :=
  let responseBody := respToString resp
  let responseHeaders : List (GoString × GoString) :=
    resp.Header.filterMap (fun kv => match kv.2 with
      | [] => none
      | v :: _ => some (kv.1, v))
  let apiResponse : CustomAPIResponse :=
    { StatusCode := resp.StatusCode
      Headers := responseHeaders
      Body := responseBody
      Success := decide (resp.StatusCode ≥ 200 ∧ resp.StatusCode < 300)
      Error := [] }
  if ¬ apiResponse.Success then
    { apiResponse with Error := lit "Request failed with status " ++ fmtInt resp.StatusCode }
  else apiResponse

/-- The `requestData` of `MakeRequest` (lines 31-34). -/
def requestData (req : CustomAPIRequest) : Option GoString :=
  if req.Body.length > 0 then some req.Body else none

/-- `CustomAPIClient.MakeRequest`. -/
def MakeRequest (w : World) (c : Client) (n : Net) (req : CustomAPIRequest) :
    Outcome (Option CustomAPIResponse × Option GoString) × Client × Net :=
  match GetToken w c.authClient n with
  | ((_, some err), ac1, n1) =>
    (.returned (none, some (lit "failed to get auth token: " ++ err)),
      { c with authClient := ac1 }, n1)
  | ((token, none), ac1, n1) =>
    let c1 := { c with authClient := ac1 }
    match buildURL w c1 req.URL req.QueryParams with
    | .panicked msg => (.panicked msg, c1, n1)
    | .returned fullURL =>
      match createRequest w req.Method fullURL (requestData req) with
      | .panicked msg => (.panicked msg, c1, n1)
      | .returned (.error err) =>
        (.returned (none, some (lit "failed to create request: " ++ err)), c1, n1)
      | .returned (.ok httpReq0) =>
        let httpReq := setHeaders httpReq0 req.Headers token
        match Do w n1 httpReq with
        | (.error err, n2) =>
          (.returned (none, some (lit "failed to execute request: " ++ err)), c1, n2)
        | (.ok resp, n2) => (.returned (some (buildResponse resp), none), c1, n2)

/-! ## Concrete worlds used to exercise the model -/

/-- A world whose token endpoint always answers with the given status and
body, whose decoder yields `tr`, whose clock reads `clock`, with an empty
environment and a request constructor that never fails. -/
def fixedWorld (status : Int) (body : GoString) (tr : Except GoString TokenResponse)
    (clock : Nat → Time) : World :=
  { getenv := fun _ => []
    now := clock
    newRequestErr := fun _ _ => none
    roundTrip := fun _ _ => .ok { StatusCode := status, Header := [], Body := ⟨body, none⟩ }
    decodeToken := fun _ => tr }

/-- Username/password credentials, no static token, no base URL. -/
def pwConfig : AuthConfig :=
  { Username := lit "user@example.com", Password := lit "p&ss=w+rd 1", Environment := lit "qa",
    AuthToken := [], BaseURL := [] }

/-- Scenario A: a static token is configured. -/
def staticConfig : AuthConfig := { pwConfig with AuthToken := lit "abc123" }

/-- Nothing has happened yet. -/
def Net.start : Net := { ticks := 0, sent := [] }

/-- Scenario B: the endpoint returns `tok1`, valid for 3600 seconds. -/
def worldB : World :=
  fixedWorld 200 (lit "\x7b\"access_token\":\"tok1\",\"expires_in\":3600\x7d")
    (.ok { AccessToken := lit "tok1", TokenType := [], ExpiresIn := 3600, Scope := [] })
    (fun k => 1000 * k)

/-- Credentials client with an empty cache, as `NewAuthClient` builds it. -/
def pwClient : AuthClient := NewAuthClient pwConfig

/-- A token endpoint that answers 200 with the payload `{"expires_in":3600}`:
the decoder leaves `AccessToken` empty. The clock stands still. -/
def worldEmptyToken : World :=
  fixedWorld 200 (lit "\x7b\"expires_in\":3600\x7d")
    (.ok { AccessToken := [], TokenType := [], ExpiresIn := 3600, Scope := [] })
    (fun _ => 1700000000000000000)

/-- A token endpoint that answers 200 with `tok1` and
`expires_in = 9223372037`, the least number of seconds whose nanosecond count
exceeds the signed 64-bit range. The clock stands still. -/
def worldHugeExpiry : World :=
  fixedWorld 200 (lit "\x7b\"access_token\":\"tok1\",\"expires_in\":9223372037\x7d")
    (.ok { AccessToken := lit "tok1", TokenType := [], ExpiresIn := 9223372037, Scope := [] })
    (fun _ => 1700000000000000000)

/-- Scenario C: the endpoint answers 401 with `{"error":"invalid_grant"}`. -/
def worldC : World :=
  fixedWorld 401 (lit "\x7b\"error\":\"invalid_grant\"\x7d") (.error (lit "unused")) (fun k => 1000 * k)

/-- A server that answers every request with status 200 and the request's own
body. -/
def worldEcho : World :=
  { getenv := fun _ => []
    now := fun _ => 0
    newRequestErr := fun _ _ => none
    roundTrip := fun _ req => .ok { StatusCode := 200, Header := [], Body := ⟨req.Body.getD [], none⟩ }
    decodeToken := fun _ => .error (lit "unused") }

/-- Scenario E: every request is answered with status 500 and a JSON error
body. -/
def worldE : World :=
  fixedWorld 500 (lit "\x7b\"message\":\"boom\"\x7d") (.error (lit "unused")) (fun _ => 0)

/-- A proxy client with the static token of Scenario A and a base URL. -/
def staticClient : Client := NewClient staticConfig (lit "https://api.example.com")

/-- The JSON document `{"a": 1}`, with a space after the colon. -/
def bodySpaced : GoString := lit "\x7b\"a\": 1\x7d"

/-- The JSON document `{"a":"<b>&"}`. -/
def bodyMarkup : GoString := lit "\x7b\"a\":\"<b>&\"\x7d"

/-- A POST of `body` to `/api/things` with no extra headers or query. -/
def postRequest (body : GoString) : CustomAPIRequest :=
  { Method := lit "POST", URL := lit "/api/things", Headers := [], Body := body, QueryParams := [] }

/-! ## The resource wrappers of `custom_api.go`

`data interface{}` is a value of an arbitrary type `Data`; `jsonMarshal` is
`json.Marshal` on that type. -/

/-- `CustomAPIClient.CreateResource`. -/
def CreateResource {Data : Type} (jsonMarshal : Data → Except GoString GoString) (w : World)
    (c : Client) (n : Net) (endpoint : GoString) (data : Data) (orgID : GoString) :
    Outcome (Option CustomAPIResponse × Option GoString) × Client × Net :=
  match jsonMarshal data with
  | .error err =>
    (.returned (none, some (lit "failed to marshal request data: " ++ err)), c, n)
  | .ok body =>
    let req : CustomAPIRequest :=
      { Method := lit "POST", URL := endpoint, Body := body,
        Headers := [(lit "Accept", lit "application/json")], QueryParams := [] }
    let req : CustomAPIRequest :=
      if orgID ≠ [] then
        { req with Headers := req.Headers ++ [(lit "current-organization", orgID)] }
      else req
    MakeRequest w c n req

/-- `CustomAPIClient.ReadResource`. -/
def ReadResource (w : World) (c : Client) (n : Net) (endpoint : GoString) (orgID : GoString) :
    Outcome (Option CustomAPIResponse × Option GoString) × Client × Net :=
  let req : CustomAPIRequest :=
    { Method := lit "GET", URL := endpoint, Body := [],
      Headers := [(lit "Accept", lit "application/json")], QueryParams := [] }
  let req : CustomAPIRequest :=
    if orgID ≠ [] then
      { req with Headers := req.Headers ++ [(lit "current-organization", orgID)] }
    else req
  MakeRequest w c n req

/-- `CustomAPIClient.UpdateResource`. -/
def UpdateResource {Data : Type} (jsonMarshal : Data → Except GoString GoString) (w : World)
    (c : Client) (n : Net) (endpoint : GoString) (data : Data) (orgID : GoString) :
    Outcome (Option CustomAPIResponse × Option GoString) × Client × Net :=
  match jsonMarshal data with
  | .error err =>
    (.returned (none, some (lit "failed to marshal request data: " ++ err)), c, n)
  | .ok body =>
    let req : CustomAPIRequest :=
      { Method := lit "PUT", URL := endpoint, Body := body,
        Headers := [(lit "Accept", lit "application/json")], QueryParams := [] }
    let req : CustomAPIRequest :=
      if orgID ≠ [] then
        { req with Headers := req.Headers ++ [(lit "current-organization", orgID)] }
      else req
    MakeRequest w c n req

/-- `CustomAPIClient.DeleteResource`. -/
def DeleteResource (w : World) (c : Client) (n : Net) (endpoint : GoString) (orgID : GoString) :
    Outcome (Option CustomAPIResponse × Option GoString) × Client × Net :=
  let req : CustomAPIRequest :=
    { Method := lit "DELETE", URL := endpoint, Body := [],
      Headers := [(lit "Accept", lit "application/json")], QueryParams := [] }
  let req : CustomAPIRequest :=
    if orgID ≠ [] then
      { req with Headers := req.Headers ++ [(lit "current-organization", orgID)] }
    else req
  MakeRequest w c n req

/-- Lookup in a `map[string]string` listed as pairs. -/
def mapLookup : List (GoString × GoString) → GoString → Option GoString
  | [], _ => none
  | (k, v) :: rest, key => if k = key then some v else mapLookup rest key

/-- A `json.Marshal` for the examples: the data is a list of bytes and its
serialization is the JSON string made of them (no escaping is needed for the
bytes used). -/
def marshalText (data : GoString) : Except GoString GoString :=
  .ok ((34 : Byte) :: data ++ [(34 : Byte)])

/-! ## The query string as the specification describes it -/

/-- Insert a pair into a list of pairs in ascending key order. -/
def insertPair (e : GoString × GoString) : List (GoString × GoString) → List (GoString × GoString)
  | [] => [e]
  | x :: rest => if strLess x.1 e.1 then x :: insertPair e rest else e :: x :: rest

/-- The pairs of a query map in ascending key order. -/
def sortPairs : List (GoString × GoString) → List (GoString × GoString)
  | [] => []
  | e :: rest => insertPair e (sortPairs rest)

/-- The specification's `enc(Q)`: the percent-encoded `key=value` pairs of `Q`
joined by `&`, in ascending key order. -/
def encQuery (Q : List (GoString × GoString)) : GoString :=
  joinAmp ((sortPairs Q).map (fun kv => QueryEscape kv.1 ++ (61 : Byte) :: QueryEscape kv.2))

/-- A query map with three entries, visited in one order. -/
def queryOne : List (GoString × GoString) :=
  [(lit "page", lit "2"), (lit "q", lit "a b&c"), (lit "filter", lit "x=y")]

/-- The same query map visited in another order. -/
def queryTwo : List (GoString × GoString) :=
  [(lit "q", lit "a b&c"), (lit "filter", lit "x=y"), (lit "page", lit "2")]

/-- A proxy client with the static token of Scenario A and no base URL. -/
def noBaseClient : Client := NewClient staticConfig []

/-- A proxy client with username/password credentials and a base URL. -/
def pwProxyClient : Client := NewClient pwConfig (lit "https://api.example.com")

/-- A server whose response (status 200) breaks off after the bytes `{"id":`
with the read error `unexpected EOF`. -/
def worldReadFail : World :=
  { getenv := fun _ => []
    now := fun _ => 0
    newRequestErr := fun _ _ => none
    roundTrip := fun _ _ =>
      .ok { StatusCode := 200, Header := [], Body := ⟨lit "\x7b\"id\":", some (lit "unexpected EOF")⟩ }
    decodeToken := fun _ => .error (lit "unused") }

/-- A server that answers every request with status 401 and a JSON error
body. -/
def world401 : World :=
  fixedWorld 401 (lit "\x7b\"error\":\"expired\"\x7d") (.error (lit "unused")) (fun _ => 0)

/-- A token endpoint that answers 200 with the payload `{}`: the decoder
leaves every field of `TokenResponse` at its zero value. -/
def worldEmptyObject : World :=
  fixedWorld 200 (lit "\x7b\x7d")
    (.ok { AccessToken := [], TokenType := [], ExpiresIn := 0, Scope := [] })
    (fun _ => 1700000000000000000)

/-- Caller headers of the header-overlay example: an `authorization` key in
lower case and a tracing header. -/
def callerHeaders : List (GoString × GoString) :=
  [(lit "authorization", lit "Basic xyz"), (lit "X-Trace", lit "1")]

/-- A request as `createRequest` returns it: no headers yet. -/
def bareRequest : HttpRequest :=
  { Method := lit "GET", URL := lit "https://api.example.com/api/things", Header := [], Body := none }

/-! ## Theorems -/

/-- C1: with a non-empty static token, `GetToken` returns exactly that token
with a nil error, for every cached token, expiry and clock; the outside is
untouched (no request issued, the clock is not even read) and the client,
hence its cached token and expiry, is unchanged. -/
theorem GetToken_static_token (w : World) (ac : AuthClient) (n : Net)
    (h : ac.config.AuthToken ≠ []) :
    GetToken w ac n = ((ac.config.AuthToken, none), ac, n) := by
  simp [GetToken, h]

/-- Scenario A as an instance of C1: static token `abc123`, whatever is
cached. -/
theorem GetToken_static_token_witness :
    GetToken worldB { config := staticConfig, token := lit "old", expiresAt := 5 } Net.start
      = ((lit "abc123", none),
          { config := staticConfig, token := lit "old", expiresAt := 5 }, Net.start) :=
  GetToken_static_token worldB _ Net.start (by decide)

/-- C7: `getAuthURL` is `BaseURL ++ "/oauth/token"` for a non-empty `BaseURL`
whatever the environment; for an empty `BaseURL` it is the staging endpoint
for `"staging"`, the production endpoint for `"prod"`, and the qa endpoint
for `"qa"` and for every other environment string. -/
theorem getAuthURL_resolution (ac : AuthClient) :
    (ac.config.BaseURL ≠ [] → getAuthURL ac = ac.config.BaseURL ++ lit "/oauth/token") ∧
    (ac.config.BaseURL = [] → ac.config.Environment = lit "staging" →
      getAuthURL ac = lit "https://pace-app-staging.us.auth0.com/oauth/token") ∧
    (ac.config.BaseURL = [] → ac.config.Environment = lit "prod" →
      getAuthURL ac = lit "https://pace-app.us.auth0.com/oauth/token") ∧
    (ac.config.BaseURL = [] → ac.config.Environment ≠ lit "staging" →
      ac.config.Environment ≠ lit "prod" →
      getAuthURL ac = lit "https://pace-app-qa.us.auth0.com/oauth/token") := by
  refine ⟨?_, ?_, ?_, ?_⟩
  · intro h
    simp [getAuthURL, h]
  · intro h he
    simp only [getAuthURL, h, he]
    decide
  · intro h he
    simp only [getAuthURL, h, he]
    decide
  · intro h h1 h2
    simp only [getAuthURL, h]
    by_cases hq : ac.config.Environment = lit "qa"
    · simp only [hq]
      decide
    · simp only [hq, h1, h2]
      decide

/-- C7 at `Environment = "PROD"` with no base URL: the letter case differs
from `"prod"`, so the qa endpoint is chosen. -/
theorem getAuthURL_resolution_witness :
    getAuthURL { config := { pwConfig with Environment := lit "PROD" }, token := [], expiresAt := 0 }
      = lit "https://pace-app-qa.us.auth0.com/oauth/token" :=
  (getAuthURL_resolution
    { config := { pwConfig with Environment := lit "PROD" }, token := [], expiresAt := 0 }).2.2.2
    (by decide) (by decide) (by decide)

/-! ### Shared lemmas on `authenticateWithCredentials` -/

theorem wrapInt64_of_inRange (x : Int) (hlo : minInt ≤ x) (hhi : x ≤ maxInt) :
    wrapInt64 x = x := by
  unfold wrapInt64
  unfold minInt at hlo
  unfold maxInt at hhi
  omega

theorem secondsToDuration_exact (e : Int) (hlo : -9223372036 ≤ e) (hhi : e ≤ 9223372036) :
    Duration.mul e Second = e * 1000000000 := by
  unfold Duration.mul Second
  apply wrapInt64_of_inRange
  · unfold minInt; omega
  · unfold maxInt; omega

theorem authenticate_success (w : World) (ac : AuthClient) (n : Net) (req : HttpRequest)
    (resp : HttpResponse) (tr : TokenResponse)
    (hreq : authRequest w ac = .ok req) (hresp : w.roundTrip n.sent.length req = .ok resp)
    (h200 : resp.StatusCode = 200) (hdec : w.decodeToken resp.Body = .ok tr) :
    authenticateWithCredentials w ac n =
      ((tr.AccessToken, none),
        { ac with token := tr.AccessToken,
                  expiresAt := w.now n.ticks + Duration.mul tr.ExpiresIn Second },
        { ticks := n.ticks + 1, sent := n.sent ++ [req] }) := by
  simp [authenticateWithCredentials, hreq, Do, hresp, h200, hdec, timeNow, Time.Add]

theorem authenticate_non200 (w : World) (ac : AuthClient) (n : Net) (req : HttpRequest)
    (resp : HttpResponse)
    (hreq : authRequest w ac = .ok req) (hresp : w.roundTrip n.sent.length req = .ok resp)
    (hne : resp.StatusCode ≠ 200) :
    authenticateWithCredentials w ac n =
      (([], some (lit "authentication failed with status: " ++ fmtInt resp.StatusCode ++
          lit ", body: " ++ resp.Body.data)), ac, { n with sent := n.sent ++ [req] }) := by
  simp [authenticateWithCredentials, hreq, Do, hresp, hne, ReadAll]

theorem authenticate_error_keeps_client (w : World) (ac : AuthClient) (n : Net)
    (h : (authenticateWithCredentials w ac n).1.2 ≠ none) :
    (authenticateWithCredentials w ac n).2.1 = ac := by
  unfold authenticateWithCredentials at h ⊢
  cases hreq : authRequest w ac with
  | error e => simp
  | ok req =>
    simp only [Do] at h ⊢
    cases hresp : w.roundTrip n.sent.length req with
    | error e => simp
    | ok resp =>
      by_cases h200 : resp.StatusCode = 200
      · cases hdec : w.decodeToken resp.Body with
        | error e => simp [h200, hdec]
        | ok tr => simp [hreq, hresp, h200, hdec, timeNow] at h
      · simp [h200]

theorem authenticate_sent (w : World) (ac : AuthClient) (n : Net) :
    (authenticateWithCredentials w ac n).2.2.sent =
      n.sent ++ (match authRequest w ac with | .ok req => [req] | .error _ => []) := by
  unfold authenticateWithCredentials
  cases hreq : authRequest w ac with
  | error e => simp
  | ok req =>
    simp only [Do]
    cases hresp : w.roundTrip n.sent.length req with
    | error e => simp
    | ok resp =>
      by_cases h200 : resp.StatusCode = 200
      · cases hdec : w.decodeToken resp.Body with
        | error e => simp [h200, hdec]
        | ok tr => simp [h200, hdec, timeNow]
      · simp [h200]

/-! ### Token cache -/

/-- Where the code meets C2: with no static token, a non-empty cached token and a clock
reading strictly before `expiresAt`, `GetToken` returns the cached token with
a nil error, sends nothing and leaves the client unchanged. In particular,
after an authentication that answered 200 with a non-empty access token and
`0 < expires_in ≤ 9223372036`, a `GetToken` whose clock reading is less than
one second after the authentication's sends nothing and returns the same
token. -/
theorem GetToken_cache_hit (w : World) (ac : AuthClient) (n : Net)
    (hs : ac.config.AuthToken = []) :
    (ac.token ≠ [] → w.now n.ticks < ac.expiresAt →
      GetToken w ac n = ((ac.token, none), ac, { n with ticks := n.ticks + 1 })) ∧
    (∀ (req : HttpRequest) (resp : HttpResponse) (tr : TokenResponse),
      authRequest w ac = .ok req → w.roundTrip n.sent.length req = .ok resp →
      resp.StatusCode = 200 → w.decodeToken resp.Body = .ok tr →
      tr.AccessToken ≠ [] → 0 < tr.ExpiresIn → tr.ExpiresIn ≤ 9223372036 →
      w.now (n.ticks + 1) < w.now n.ticks + Second →
      (authenticateWithCredentials w ac n).1 = (tr.AccessToken, none) ∧
      (GetToken w (authenticateWithCredentials w ac n).2.1
          (authenticateWithCredentials w ac n).2.2).1 = (tr.AccessToken, none) ∧
      (GetToken w (authenticateWithCredentials w ac n).2.1
          (authenticateWithCredentials w ac n).2.2).2.1 = (authenticateWithCredentials w ac n).2.1 ∧
      (GetToken w (authenticateWithCredentials w ac n).2.1
          (authenticateWithCredentials w ac n).2.2).2.2.sent
        = (authenticateWithCredentials w ac n).2.2.sent) := by
  constructor
  · intro ht hnow
    simp [GetToken, hs, ht, timeNow, Time.Before, hnow]
  · intro req resp tr hreq hresp h200 hdec htok hpos hhi hsoon
    rw [authenticate_success w ac n req resp tr hreq hresp h200 hdec]
    have hd : Duration.mul tr.ExpiresIn Second = tr.ExpiresIn * 1000000000 :=
      secondsToDuration_exact tr.ExpiresIn (by omega) hhi
    have hlt : w.now (n.ticks + 1) < w.now n.ticks + tr.ExpiresIn * 1000000000 := by
      have hsec : Second = (1000000000 : Int) := rfl
      rw [hsec] at hsoon
      linarith
    simp [GetToken, hs, htok, timeNow, Time.Before, hd, hlt]

/-- Scenario B, where the code meets C2: after `tok1` with `expires_in = 3600` is
obtained, the next `GetToken` returns `tok1` and the list of requests sent
stays at the one authentication request. -/
theorem GetToken_cache_hit_witness :
    (GetToken worldB (authenticateWithCredentials worldB pwClient Net.start).2.1
        (authenticateWithCredentials worldB pwClient Net.start).2.2).1 = (lit "tok1", none) ∧
    (GetToken worldB (authenticateWithCredentials worldB pwClient Net.start).2.1
        (authenticateWithCredentials worldB pwClient Net.start).2.2).2.2.sent
      = (authenticateWithCredentials worldB pwClient Net.start).2.2.sent :=
  have h := (GetToken_cache_hit worldB pwClient Net.start rfl).2
    ((authRequest worldB pwClient).toOption.getD ⟨[], [], [], none⟩)
    { StatusCode := 200, Header := [],
      Body := ⟨lit "\x7b\"access_token\":\"tok1\",\"expires_in\":3600\x7d", none⟩ }
    { AccessToken := lit "tok1", TokenType := [], ExpiresIn := 3600, Scope := [] }
    rfl rfl rfl rfl (by decide) (by decide) (by decide) (by decide)
  ⟨h.2.1, h.2.2.2⟩

/-- C2 at the failing input: the endpoint answers 200 with `expires_in = 3600`
and no access token; the authentication succeeds (nil error) with the empty
token and sends one request, and the `GetToken` that follows at the same clock
reading sends a second request instead of answering from the cache. -/
theorem GetToken_after_empty_token_sends_again :
    (authenticateWithCredentials worldEmptyToken pwClient Net.start).1 = ([], none) ∧
    (authenticateWithCredentials worldEmptyToken pwClient Net.start).2.2.sent.length = 1 ∧
    (GetToken worldEmptyToken (authenticateWithCredentials worldEmptyToken pwClient Net.start).2.1
        (authenticateWithCredentials worldEmptyToken pwClient Net.start).2.2).2.2.sent.length
      = 2 := by
  refine ⟨?_, ?_, ?_⟩
  · rfl
  · rfl
  · rfl

/-! ### Expiry computation -/

/-- C3 at the failing input: the endpoint answers 200 with access token `tok1`
and `expires_in = 9223372037`. The call returns `(tok1, nil)` and caches
`tok1`, but the product with `time.Second` wraps: the cached expiry is
`now - 9223372036709551616` nanoseconds, not `now + 9223372037` seconds, so
the fresh token already counts as expired. -/
theorem authenticate_expiry_wraps :
    (authenticateWithCredentials worldHugeExpiry pwClient Net.start).1 = (lit "tok1", none) ∧
    (authenticateWithCredentials worldHugeExpiry pwClient Net.start).2.1.token = lit "tok1" ∧
    (authenticateWithCredentials worldHugeExpiry pwClient Net.start).2.1.expiresAt
      = worldHugeExpiry.now 0 - 9223372036709551616 ∧
    (authenticateWithCredentials worldHugeExpiry pwClient Net.start).2.1.expiresAt
      ≠ worldHugeExpiry.now 0 + 9223372037 * 1000000000 ∧
    (IsTokenValid worldHugeExpiry
      (authenticateWithCredentials worldHugeExpiry pwClient Net.start).2.1
      (authenticateWithCredentials worldHugeExpiry pwClient Net.start).2.2).1 = false := by
  refine ⟨?_, ?_, ?_, ?_, ?_⟩
  · rfl
  · rfl
  · decide
  · decide
  · decide

/-- Where the code meets C4: after an authentication that answered 200 with a non-empty
access token and `expires_in = E`, `-9223372036 ≤ E ≤ 9223372036`, completed
at clock reading `t`, `IsTokenValid` evaluated at clock reading `t'` is true
exactly when `t' < t + E` seconds; and for every client `IsTokenValid` returns
the client unchanged and sends no request. -/
theorem IsTokenValid_after_authentication (w : World) (ac : AuthClient) (n m : Net)
    (req : HttpRequest) (resp : HttpResponse) (tr : TokenResponse)
    (hreq : authRequest w ac = .ok req) (hresp : w.roundTrip n.sent.length req = .ok resp)
    (h200 : resp.StatusCode = 200) (hdec : w.decodeToken resp.Body = .ok tr)
    (htok : tr.AccessToken ≠ [])
    (hlo : -9223372036 ≤ tr.ExpiresIn) (hhi : tr.ExpiresIn ≤ 9223372036) :
    (authenticateWithCredentials w ac n).1 = (tr.AccessToken, none) ∧
    ((IsTokenValid w (authenticateWithCredentials w ac n).2.1 m).1 = true ↔
      w.now m.ticks < w.now n.ticks + tr.ExpiresIn * 1000000000) ∧
    (∀ (c : AuthClient) (k : Net),
      (IsTokenValid w c k).2.1 = c ∧ (IsTokenValid w c k).2.2.sent = k.sent) := by
  rw [authenticate_success w ac n req resp tr hreq hresp h200 hdec]
  have hd : Duration.mul tr.ExpiresIn Second = tr.ExpiresIn * 1000000000 :=
    secondsToDuration_exact tr.ExpiresIn hlo hhi
  refine ⟨rfl, ?_, ?_⟩
  · simp [IsTokenValid, htok, timeNow, Time.Before, hd]
  · intro c k
    unfold IsTokenValid
    by_cases hc : c.token = []
    · simp [hc]
    · simp [hc, timeNow]

/-- Scenario B, where the code meets C4, checked at the second clock reading. -/
theorem IsTokenValid_after_authentication_witness :
    (IsTokenValid worldB (authenticateWithCredentials worldB pwClient Net.start).2.1
        { ticks := 1, sent := [] }).1 = true ↔
      worldB.now 1 < worldB.now 0 + 3600 * 1000000000 :=
  (IsTokenValid_after_authentication worldB pwClient Net.start { ticks := 1, sent := [] }
    ((authRequest worldB pwClient).toOption.getD ⟨[], [], [], none⟩)
    { StatusCode := 200, Header := [],
      Body := ⟨lit "\x7b\"access_token\":\"tok1\",\"expires_in\":3600\x7d", none⟩ }
    { AccessToken := lit "tok1", TokenType := [], ExpiresIn := 3600, Scope := [] }
    rfl rfl rfl rfl (by decide) (by decide) (by decide)).2.1

/-- C4 at the failing input: the endpoint answers 200 with `expires_in = 3600`
and no access token; the authentication completes with a nil error at clock
reading `t`, and `IsTokenValid` at a reading `t' < t + 3600` seconds is
false. -/
theorem IsTokenValid_false_within_lifetime :
    (authenticateWithCredentials worldEmptyToken pwClient Net.start).1.2 = none ∧
    worldEmptyToken.now 1 < worldEmptyToken.now 0 + 3600 * 1000000000 ∧
    (IsTokenValid worldEmptyToken
      (authenticateWithCredentials worldEmptyToken pwClient Net.start).2.1
      (authenticateWithCredentials worldEmptyToken pwClient Net.start).2.2).1 = false := by
  refine ⟨?_, ?_, ?_⟩
  · rfl
  · decide
  · rfl

/-! ### Failed authentication and refresh -/

/-- C5: with no static token and no usable cached token (none cached, or the
clock reading is not before `expiresAt`), when the token endpoint answers the
authentication request with a status other than 200, `GetToken` returns the
empty token and the error `authentication failed with status: <code>, body:
<body>`, which contains the decimal status and the body text; exactly one
request is sent and the client, hence the cached token and expiry, is
unchanged. -/
theorem GetToken_non200 (w : World) (ac : AuthClient) (n : Net) (req : HttpRequest)
    (resp : HttpResponse)
    (hs : ac.config.AuthToken = [])
    (hcache : ac.token = [] ∨ ¬ w.now n.ticks < ac.expiresAt)
    (hreq : authRequest w ac = .ok req) (hresp : w.roundTrip n.sent.length req = .ok resp)
    (hne : resp.StatusCode ≠ 200) :
    (GetToken w ac n).1 =
      ([], some (lit "authentication failed with status: " ++ fmtInt resp.StatusCode ++
          lit ", body: " ++ resp.Body.data)) ∧
    (∃ msg, (GetToken w ac n).1.2 = some msg ∧ Contains msg (fmtInt resp.StatusCode) ∧
      Contains msg resp.Body.data) ∧
    (GetToken w ac n).2.1 = ac ∧
    (GetToken w ac n).2.2.sent = n.sent ++ [req] := by
  have key : ∀ k : Net, k.sent = n.sent →
      authenticateWithCredentials w ac k =
        (([], some (lit "authentication failed with status: " ++ fmtInt resp.StatusCode ++
          lit ", body: " ++ resp.Body.data)), ac, { k with sent := n.sent ++ [req] }) := by
    intro k hk
    have := authenticate_non200 w ac k req resp hreq (by rw [hk]; exact hresp) hne
    rw [this, hk]
  have hG : GetToken w ac n = authenticateWithCredentials w ac n ∨
      GetToken w ac n = authenticateWithCredentials w ac { n with ticks := n.ticks + 1 } := by
    unfold GetToken
    by_cases ht : ac.token = []
    · left
      simp [hs, ht]
    · right
      have hnb : ¬ w.now n.ticks < ac.expiresAt := by
        rcases hcache with h | h
        · exact absurd h ht
        · exact h
      simp [hs, ht, timeNow, Time.Before, hnb]
  have hmsg : Contains (lit "authentication failed with status: " ++ fmtInt resp.StatusCode ++
      lit ", body: " ++ resp.Body.data) (fmtInt resp.StatusCode) ∧
      Contains (lit "authentication failed with status: " ++ fmtInt resp.StatusCode ++
      lit ", body: " ++ resp.Body.data) resp.Body.data := by
    constructor
    · exact ⟨lit "authentication failed with status: ", lit ", body: " ++ resp.Body.data, by
        simp [List.append_assoc]⟩
    · exact ⟨lit "authentication failed with status: " ++ fmtInt resp.StatusCode ++
        lit ", body: ", [], by simp⟩
  rcases hG with h | h
  · rw [h, key n rfl]
    exact ⟨rfl, ⟨_, rfl, hmsg.1, hmsg.2⟩, rfl, rfl⟩
  · rw [h, key { n with ticks := n.ticks + 1 } rfl]
    exact ⟨rfl, ⟨_, rfl, hmsg.1, hmsg.2⟩, rfl, rfl⟩

/-- Scenario C as an instance of C5: status 401, body
`{"error":"invalid_grant"}`, nothing cached before or after. -/
theorem GetToken_non200_witness :
    (GetToken worldC pwClient Net.start).1 =
      ([], some (lit "authentication failed with status: 401, body: \x7b\"error\":\"invalid_grant\"\x7d")) ∧
    (GetToken worldC pwClient Net.start).2.1 = pwClient ∧
    (GetToken worldC pwClient Net.start).2.2.sent.length = 1 :=
  have h := GetToken_non200 worldC pwClient Net.start
    ((authRequest worldC pwClient).toOption.getD ⟨[], [], [], none⟩)
    { StatusCode := 401, Header := [], Body := ⟨lit "\x7b\"error\":\"invalid_grant\"\x7d", none⟩ }
    rfl (Or.inl rfl) rfl rfl (by decide)
  ⟨h.1.trans (by decide), h.2.2.1, by rw [h.2.2.2]; rfl⟩

/-- C6: with no static token, whatever is cached, `RefreshToken` is one run of
`authenticateWithCredentials` on the client with token and expiry cleared: it
returns that run's error and final state, and sends that run's single request
(none only when the request could not be built). If the run fails, the client
is left with the empty token and the zero expiry, and `IsTokenValid` is false
at every later moment. -/
theorem RefreshToken_clears_then_authenticates (w : World) (ac : AuthClient) (n : Net)
    (hs : ac.config.AuthToken = []) :
    RefreshToken w ac n =
      ((authenticateWithCredentials w { ac with token := [], expiresAt := Time.zero } n).1.2,
       (authenticateWithCredentials w { ac with token := [], expiresAt := Time.zero } n).2.1,
       (authenticateWithCredentials w { ac with token := [], expiresAt := Time.zero } n).2.2) ∧
    (RefreshToken w ac n).2.2.sent =
      n.sent ++ (match authRequest w { ac with token := [], expiresAt := Time.zero } with
                 | .ok req => [req]
                 | .error _ => []) ∧
    ((RefreshToken w ac n).1 ≠ none →
      (RefreshToken w ac n).2.1 = { ac with token := [], expiresAt := Time.zero } ∧
      ∀ k : Net, (IsTokenValid w (RefreshToken w ac n).2.1 k).1 = false) := by
  have hR : RefreshToken w ac n =
      ((authenticateWithCredentials w { ac with token := [], expiresAt := Time.zero } n).1.2,
       (authenticateWithCredentials w { ac with token := [], expiresAt := Time.zero } n).2.1,
       (authenticateWithCredentials w { ac with token := [], expiresAt := Time.zero } n).2.2) := by
    simp [RefreshToken, GetToken, hs]
  refine ⟨hR, ?_, ?_⟩
  · rw [hR]
    exact authenticate_sent w _ n
  · rw [hR]
    intro herr
    have hkeep := authenticate_error_keeps_client w
      { ac with token := [], expiresAt := Time.zero } n herr
    refine ⟨hkeep, ?_⟩
    intro k
    show (IsTokenValid w (authenticateWithCredentials w
      { ac with token := [], expiresAt := Time.zero } n).2.1 k).1 = false
    rw [hkeep]
    simp [IsTokenValid]

/-- C6 on Scenario C with a still-valid cached token: the refresh fails with
the 401, one request is sent, and the old token is gone. -/
theorem RefreshToken_clears_then_authenticates_witness :
    (RefreshToken worldC { pwClient with token := lit "old", expiresAt := 999999 } Net.start).2.1
      = pwClient ∧
    (RefreshToken worldC { pwClient with token := lit "old", expiresAt := 999999 }
      Net.start).2.2.sent.length = 1 :=
  have h := RefreshToken_clears_then_authenticates worldC
    { pwClient with token := lit "old", expiresAt := 999999 } Net.start rfl
  ⟨(h.2.2 (by decide)).1, by rw [h.2.1]; rfl⟩

/-! ### Form encoding -/

set_option maxRecDepth 100000 in
theorem unreserved_not_special :
    ∀ c : Byte, shouldEscape c = false →
      c.val ≠ 37 ∧ c.val ≠ 43 ∧ c.val ≠ 38 ∧ c.val ≠ 61 ∧ c.val ≠ 59 := by
  decide

set_option maxRecDepth 100000 in
theorem upperhex_roundtrip :
    ∀ c : Byte, ishex (upperhex (c.val / 16)) = true ∧ ishex (upperhex (c.val % 16)) = true ∧
      (Fin.ofNat (unhex (upperhex (c.val / 16)) * 16 + unhex (upperhex (c.val % 16))) : Byte) = c := by
  decide

set_option maxRecDepth 100000 in
theorem upperhex_not_separator :
    ∀ c : Byte, (upperhex (c.val / 16)).val ≠ 38 ∧ (upperhex (c.val / 16)).val ≠ 61 ∧
      (upperhex (c.val / 16)).val ≠ 59 ∧ (upperhex (c.val % 16)).val ≠ 38 ∧
      (upperhex (c.val % 16)).val ≠ 61 ∧ (upperhex (c.val % 16)).val ≠ 59 := by
  decide

theorem QueryUnescape_QueryEscape (s : GoString) : QueryUnescape (QueryEscape s) = .ok s := by
  induction s with
  | nil => rfl
  | cons c cs ih =>
    unfold QueryEscape
    by_cases hesc : shouldEscape c = true
    · by_cases hsp : c.val = 32
      · have hc : c = (32 : Byte) := Fin.ext hsp
        simp only [hesc, hsp, if_true]
        unfold QueryUnescape
        have e1 : ¬ ((43 : Byte).val = 37) := by decide
        have e2 : (43 : Byte).val = 43 := rfl
        rw [if_neg e1, if_pos e2, ih, hc]
      · obtain ⟨h1, h2, h3⟩ := upperhex_roundtrip c
        simp only [hesc, hsp, if_true, if_false]
        unfold QueryUnescape
        have e1 : (37 : Byte).val = 37 := rfl
        simp only [e1, if_true, ih, h1, h2, h3, Bool.and_self]
    · have hne : shouldEscape c = false := by simpa using hesc
      obtain ⟨h37, h43, -, -, -⟩ := unreserved_not_special c hne
      simp only [hne]
      unfold QueryUnescape
      simp [ih, h37, h43]

theorem QueryEscape_no_separator (s : GoString) :
    ∀ b ∈ QueryEscape s, b.val ≠ 38 ∧ b.val ≠ 61 ∧ b.val ≠ 59 := by
  induction s with
  | nil => intro b hb; simp [QueryEscape] at hb
  | cons c cs ih =>
    intro b hb
    unfold QueryEscape at hb
    by_cases hesc : shouldEscape c = true
    · by_cases hsp : c.val = 32
      · simp only [hesc, hsp, if_true, List.mem_cons] at hb
        rcases hb with hb | hb
        · subst hb; decide
        · exact ih b hb
      · obtain ⟨a1, a2, a3, a4, a5, a6⟩ := upperhex_not_separator c
        simp only [hesc, hsp, if_true, if_false, List.mem_cons] at hb
        rcases hb with hb | hb | hb | hb
        · subst hb; decide
        · subst hb; exact ⟨a1, a2, a3⟩
        · subst hb; exact ⟨a4, a5, a6⟩
        · exact ih b hb
    · have hne : shouldEscape c = false := by simpa using hesc
      obtain ⟨-, -, h38, h61, h59⟩ := unreserved_not_special c hne
      simp only [hne, List.mem_cons] at hb
      have hb2 : b = c ∨ b ∈ QueryEscape cs := by simpa using hb
      rcases hb2 with hb2 | hb2
      · rw [hb2]; exact ⟨h38, h61, h59⟩
      · exact ih b hb2

theorem cutByte_append (sep : Byte) (a b : GoString) (ha : ∀ x ∈ a, x ≠ sep) :
    cutByte sep (a ++ sep :: b) = (a, b, true) := by
  induction a with
  | nil => simp [cutByte]
  | cons c cs ih =>
    have hc : c ≠ sep := ha c (List.mem_cons_self c cs)
    have ih1 := ih (fun x hx => ha x (List.mem_cons_of_mem c hx))
    simp [cutByte, hc, ih1]

theorem splitByte_single (sep : Byte) (a : GoString) (ha : ∀ x ∈ a, x ≠ sep) :
    splitByte sep a = [a] := by
  induction a with
  | nil => rfl
  | cons c cs ih =>
    have hc : c ≠ sep := ha c (List.mem_cons_self c cs)
    have ih1 := ih (fun x hx => ha x (List.mem_cons_of_mem c hx))
    simp [splitByte, hc, ih1]

theorem splitByte_append (sep : Byte) (a b : GoString) (ha : ∀ x ∈ a, x ≠ sep) :
    splitByte sep (a ++ sep :: b) = a :: splitByte sep b := by
  induction a with
  | nil => simp [splitByte]
  | cons c cs ih =>
    have hc : c ≠ sep := ha c (List.mem_cons_self c cs)
    have ih1 := ih (fun x hx => ha x (List.mem_cons_of_mem c hx))
    simp [splitByte, hc, ih1]

theorem splitByte_joinAmp (segs : List GoString) (hne : segs ≠ [])
    (h : ∀ s ∈ segs, ∀ x ∈ s, x ≠ (38 : Byte)) : splitByte 38 (joinAmp segs) = segs := by
  induction segs with
  | nil => exact absurd rfl hne
  | cons s rest ih =>
    cases rest with
    | nil =>
      simp only [joinAmp]
      exact splitByte_single 38 s (h s (List.mem_cons_self s []))
    | cons t rest2 =>
      simp only [joinAmp]
      rw [splitByte_append 38 s _ (h s (List.mem_cons_self s _))]
      rw [ih (by simp) (fun u hu => h u (List.mem_cons_of_mem s hu))]

/-- The `key=value` piece written for one pair. -/
theorem parseSegment_pair (m : Values) (err : Option GoString) (k v : GoString) :
    parseSegment m err (QueryEscape k ++ (61 : Byte) :: QueryEscape v) = (m.Add k v, err) := by
  have hsemi : (QueryEscape k ++ (61 : Byte) :: QueryEscape v).any (fun c => decide (c.val = 59))
      = false := by
    rw [List.any_eq_false]
    intro x hx
    simp only [List.mem_append, List.mem_cons] at hx
    rcases hx with hx | hx | hx
    · simpa using (QueryEscape_no_separator k x hx).2.2
    · subst hx; decide
    · simpa using (QueryEscape_no_separator v x hx).2.2
  have hcut : cutByte 61 (QueryEscape k ++ (61 : Byte) :: QueryEscape v)
      = (QueryEscape k, QueryEscape v, true) := by
    apply cutByte_append
    intro x hx hxe
    exact (QueryEscape_no_separator k x hx).2.1 (by rw [hxe]; rfl)
  unfold parseSegment
  simp [hsemi, hcut, QueryUnescape_QueryEscape]

theorem segment_no_amp (k v : GoString) :
    ∀ x ∈ QueryEscape k ++ (61 : Byte) :: QueryEscape v, x ≠ (38 : Byte) := by
  intro x hx hxe
  simp only [List.mem_append, List.mem_cons] at hx
  rcases hx with hx | hx | hx
  · exact (QueryEscape_no_separator k x hx).1 (by rw [hxe]; rfl)
  · rw [hxe] at hx; exact absurd hx (by decide)
  · exact (QueryEscape_no_separator v x hx).1 (by rw [hxe]; rfl)

theorem authForm_segments (ac : AuthClient) (config : Config) :
    encodeSegments (authForm ac config) =
      [ QueryEscape (lit "audience") ++ (61 : Byte) :: QueryEscape config.Audience,
        QueryEscape (lit "client_id") ++ (61 : Byte) :: QueryEscape config.ClientID,
        QueryEscape (lit "grant_type") ++ (61 : Byte) :: QueryEscape (lit "password"),
        QueryEscape (lit "password") ++ (61 : Byte) :: QueryEscape ac.config.Password,
        QueryEscape (lit "scope") ++ (61 : Byte) :: QueryEscape (lit "openid profile email"),
        QueryEscape (lit "username") ++ (61 : Byte) :: QueryEscape ac.config.Username ] := by
  rfl

theorem ParseQuery_authForm (ac : AuthClient) (config : Config) :
    ParseQuery (authForm ac config).Encode =
      ([ (lit "audience", [config.Audience]),
         (lit "client_id", [config.ClientID]),
         (lit "grant_type", [lit "password"]),
         (lit "password", [ac.config.Password]),
         (lit "scope", [lit "openid profile email"]),
         (lit "username", [ac.config.Username]) ], none) := by
  unfold ParseQuery Values.Encode
  rw [authForm_segments, splitByte_joinAmp _ (by simp)]
  · simp only [List.foldl_cons, List.foldl_nil, parseSegment_pair]
    rfl
  · intro s hs
    simp only [List.mem_cons, List.mem_singleton, List.not_mem_nil, or_false] at hs
    rcases hs with h | h | h | h | h | h <;> (rw [h]; exact segment_no_amp _ _)

/-- C8: when the request can be built, `authenticateWithCredentials` sends a
POST to `getAuthURL()` whose header map is exactly `Content-Type:
application/x-www-form-urlencoded` and `Accept: application/json` and whose
body, decoded by `url.ParseQuery`, is exactly the six fields `audience` and
`client_id` (from the environment), `grant_type = password`, `password`,
`scope = openid profile email` and `username`, each with its value unchanged
byte for byte, for every username and password. -/
theorem authRequest_wire_format (w : World) (ac : AuthClient) (n : Net)
    (hnew : w.newRequestErr (lit "POST") (getAuthURL ac) = none) :
    ∃ (req : HttpRequest) (body : GoString),
      authRequest w ac = .ok req ∧
      (authenticateWithCredentials w ac n).2.2.sent = n.sent ++ [req] ∧
      req.Method = lit "POST" ∧ req.URL = getAuthURL ac ∧
      req.Header = [ (lit "Content-Type", [lit "application/x-www-form-urlencoded"]),
                     (lit "Accept", [lit "application/json"]) ] ∧
      req.Body = some body ∧
      ParseQuery body =
        ([ (lit "audience", [w.getenv (lit "CUSTOMAPI_AUDIENCE")]),
           (lit "client_id", [w.getenv (lit "CUSTOMAPI_CLIENT_ID")]),
           (lit "grant_type", [lit "password"]),
           (lit "password", [ac.config.Password]),
           (lit "scope", [lit "openid profile email"]),
           (lit "username", [ac.config.Username]) ], none) := by
  obtain ⟨config, hcfg, haud, hcid⟩ : ∃ config, LoadConfig w = .ok config ∧
      config.Audience = w.getenv (lit "CUSTOMAPI_AUDIENCE") ∧
      config.ClientID = w.getenv (lit "CUSTOMAPI_CLIENT_ID") := ⟨_, rfl, rfl, rfl⟩
  have hreq : authRequest w ac = .ok
      { Method := lit "POST", URL := getAuthURL ac,
        Header := [ (lit "Content-Type", [lit "application/x-www-form-urlencoded"]),
                    (lit "Accept", [lit "application/json"]) ],
        Body := some (authForm ac config).Encode } := by
    unfold authRequest NewRequest
    rw [hcfg]
    have hm : (if lit "POST" = [] then lit "GET" else lit "POST") = lit "POST" := by decide
    simp only [hm, hnew]
    rfl
  refine ⟨_, (authForm ac config).Encode, hreq, ?_, rfl, rfl, rfl, rfl, ?_⟩
  · rw [authenticate_sent, hreq]
  · rw [ParseQuery_authForm, haud, hcid]

/-- C8 on credentials whose password holds `&`, `=`, `+` and a space and whose
username holds the two-byte UTF-8 encoding of a non-ASCII letter. -/
theorem authRequest_wire_format_witness :
    ∃ (req : HttpRequest) (body : GoString),
      authRequest worldB { pwClient with config := { pwConfig with Username := [195, 169, 64, 120] } }
        = .ok req ∧
      req.Body = some body ∧
      ParseQuery body =
        ([ (lit "audience", [[]]),
           (lit "client_id", [[]]),
           (lit "grant_type", [lit "password"]),
           (lit "password", [lit "p&ss=w+rd 1"]),
           (lit "scope", [lit "openid profile email"]),
           (lit "username", [[195, 169, 64, 120]]) ], none) :=
  have ⟨req, body, h1, _, _, _, _, h6, h7⟩ := authRequest_wire_format worldB
    { pwClient with config := { pwConfig with Username := [195, 169, 64, 120] } } Net.start rfl
  ⟨req, body, h1, h6, h7⟩

/-! ### Response envelope -/

theorem lit_append_ne_nil (a b : GoString) (ha : a ≠ []) : a ++ b ≠ [] := by
  intro h
  exact ha (List.append_eq_nil.mp h).1

theorem buildResponse_fields (resp : HttpResponse) (hread : resp.Body.readErr = none) :
    (buildResponse resp).StatusCode = resp.StatusCode ∧
    (buildResponse resp).Body = resp.Body.data ∧
    (buildResponse resp).Success = decide (200 ≤ resp.StatusCode ∧ resp.StatusCode < 300) ∧
    ((buildResponse resp).Success = true → (buildResponse resp).Error = []) ∧
    ((buildResponse resp).Success = false →
      (buildResponse resp).Error = lit "Request failed with status " ++ fmtInt resp.StatusCode) ∧
    ((buildResponse resp).Error ≠ [] ↔ (buildResponse resp).Success = false) := by
  have hbody : respToString resp = resp.Body.data := by
    simp [respToString, ReadAll, hread]
  have hne : lit "Request failed with status " ++ fmtInt resp.StatusCode ≠ [] :=
    lit_append_ne_nil _ _ (by decide)
  by_cases h : 200 ≤ resp.StatusCode ∧ resp.StatusCode < 300
  · have hs : decide (resp.StatusCode ≥ 200 ∧ resp.StatusCode < 300) = true := by
      simpa using h
    simp [buildResponse, hbody, hs, h]
  · have hs : decide (resp.StatusCode ≥ 200 ∧ resp.StatusCode < 300) = false := by
      simpa using h
    simp only [buildResponse, hbody, hs]
    simp [h, hne]

/-- C9: whenever `MakeRequest` gets as far as a response with status `c` whose
body `b` is read in full, it returns a nil error and an envelope with
`StatusCode = c`, `Body = b`, `Success = (200 ≤ c ∧ c < 300)`, and `Error`
empty when `Success` holds and `"Request failed with status "` followed by
the decimal `c` otherwise; so `Error` is non-empty exactly when `Success` is
false. -/
theorem MakeRequest_envelope (w : World) (c : Client) (n n1 : Net) (req : CustomAPIRequest)
    (token : GoString) (ac1 : AuthClient) (fullURL : GoString) (httpReq : HttpRequest)
    (resp : HttpResponse)
    (htok : GetToken w c.authClient n = ((token, none), ac1, n1))
    (hurl : buildURL w { c with authClient := ac1 } req.URL req.QueryParams = .returned fullURL)
    (hreq : createRequest w req.Method fullURL (requestData req) = .returned (.ok httpReq))
    (hresp : w.roundTrip n1.sent.length (setHeaders httpReq req.Headers token) = .ok resp)
    (hread : resp.Body.readErr = none) :
    ∃ env : CustomAPIResponse,
      (MakeRequest w c n req).1 = .returned (some env, none) ∧
      env.StatusCode = resp.StatusCode ∧
      env.Body = resp.Body.data ∧
      env.Success = decide (200 ≤ resp.StatusCode ∧ resp.StatusCode < 300) ∧
      (env.Success = true → env.Error = []) ∧
      (env.Success = false →
        env.Error = lit "Request failed with status " ++ fmtInt resp.StatusCode) ∧
      (env.Error ≠ [] ↔ env.Success = false) := by
  refine ⟨buildResponse resp, ?_, buildResponse_fields resp hread⟩
  unfold MakeRequest
  rw [htok]
  simp only [hurl, hreq, Do, hresp]

/-- Scenario E as an instance of C9: status 500 gives `Success = false`,
`Error = "Request failed with status 500"` and the server's bytes in `Body`. -/
theorem MakeRequest_envelope_witness :
    ∃ env : CustomAPIResponse,
      (MakeRequest worldE staticClient Net.start (postRequest [])).1 = .returned (some env, none) ∧
      env.StatusCode = 500 ∧
      env.Body = lit "\x7b\"message\":\"boom\"\x7d" ∧
      env.Success = false ∧
      env.Error = lit "Request failed with status 500" :=
  have ⟨env, h1, h2, h3, h4, _, h6, _⟩ := MakeRequest_envelope worldE staticClient Net.start
    Net.start (postRequest []) (lit "abc123") staticClient.authClient
    (lit "https://api.example.com/api/things")
    { Method := lit "POST", URL := lit "https://api.example.com/api/things", Header := [],
      Body := none }
    { StatusCode := 500, Header := [], Body := ⟨lit "\x7b\"message\":\"boom\"\x7d", none⟩ }
    rfl rfl rfl rfl rfl
  ⟨env, h1, h2, h3, h4.trans (by decide), (h6 (h4.trans (by decide))).trans (by decide)⟩

/-! ### Request body -/

/-- C10 at the failing inputs: against the echo server, a request whose body
is `{"a": 1}` is sent as `{"a":1}`, and one whose body is `{"a":"<b>&"}` is
sent with `<`, `>` and `&` replaced by their `\u003c`, `\u003e` and `\u0026`
escapes; the
envelope's `Body` is the re-encoded text, not `req.Body`. -/
theorem MakeRequest_reencodes_body :
    (MakeRequest worldEcho staticClient Net.start (postRequest bodySpaced)).2.2.sent.map
        (fun r => r.Body) = [some (lit "\x7b\"a\":1\x7d")] ∧
    ((MakeRequest worldEcho staticClient Net.start (postRequest bodySpaced)).1 =
      .returned (some { StatusCode := 200, Headers := [], Body := lit "\x7b\"a\":1\x7d",
                        Success := true, Error := [] }, none)) ∧
    lit "\x7b\"a\":1\x7d" ≠ bodySpaced ∧
    (MakeRequest worldEcho staticClient Net.start (postRequest bodyMarkup)).2.2.sent.map
        (fun r => r.Body) = [some (lit "\x7b\"a\":\"\\u003cb\\u003e\\u0026\"\x7d")] ∧
    ((MakeRequest worldEcho staticClient Net.start (postRequest bodyMarkup)).1 =
      .returned (some { StatusCode := 200, Headers := [],
                        Body := lit "\x7b\"a\":\"\\u003cb\\u003e\\u0026\"\x7d",
                        Success := true, Error := [] }, none)) ∧
    lit "\x7b\"a\":\"\\u003cb\\u003e\\u0026\"\x7d" ≠ bodyMarkup := by
  refine ⟨?_, ?_, ?_, ?_, ?_, ?_⟩ <;> decide

/-! ### Header overlay -/

theorem lookup_Values_Set (h : Header) (k v key : GoString) :
    Header.lookup (Values.Set h k v) key = if k = key then some [v] else Header.lookup h key := by
  induction h with
  | nil => simp [Values.Set, Header.lookup]
  | cons e rest ih =>
    obtain ⟨k0, vs⟩ := e
    by_cases h0 : k0 = k
    · subst h0
      by_cases h1 : k0 = key
      · simp [Values.Set, Header.lookup, h1]
      · simp [Values.Set, Header.lookup, h1]
    · by_cases h1 : k0 = key
      · subst h1
        have h2 : ¬ k = k0 := fun hk => h0 hk.symm
        simp [Values.Set, Header.lookup, h0, h2]
      · simp [Values.Set, Header.lookup, h0, h1, ih]

theorem lookup_Header_Set (h : Header) (k v key : GoString) :
    Header.lookup (Header.Set h k v) key =
      if CanonicalMIMEHeaderKey k = key then some [v] else Header.lookup h key := by
  unfold Header.Set
  exact lookup_Values_Set h _ v key

theorem lookup_overlay_other (custom : List (GoString × GoString)) (h0 : Header) (key : GoString)
    (hk : key ∉ custom.map (fun kv => CanonicalMIMEHeaderKey kv.1)) :
    Header.lookup (custom.foldl (fun h kv => Header.Set h kv.1 kv.2) h0) key
      = Header.lookup h0 key := by
  induction custom generalizing h0 with
  | nil => rfl
  | cons x rest ih =>
    simp only [List.map_cons, List.mem_cons, not_or] at hk
    simp only [List.foldl_cons]
    rw [ih _ hk.2, lookup_Header_Set]
    have hne : ¬ CanonicalMIMEHeaderKey x.1 = key := fun h => hk.1 h.symm
    simp [hne]

theorem lookup_overlay_mem (custom : List (GoString × GoString)) (h0 : Header)
    (hnd : (custom.map (fun kv => CanonicalMIMEHeaderKey kv.1)).Nodup)
    (kv : GoString × GoString) (hkv : kv ∈ custom) :
    Header.lookup (custom.foldl (fun h kv => Header.Set h kv.1 kv.2) h0)
      (CanonicalMIMEHeaderKey kv.1) = some [kv.2] := by
  induction custom generalizing h0 with
  | nil => simp at hkv
  | cons x rest ih =>
    simp only [List.map_cons, List.nodup_cons] at hnd
    simp only [List.foldl_cons]
    rcases List.mem_cons.mp hkv with h | h
    · subst h
      rw [lookup_overlay_other rest _ _ hnd.1, lookup_Header_Set]
      simp
    · exact ih _ hnd.2 h

/-- C11: when no two caller keys coincide after canonicalisation, the header
map left by `setHeaders` is the four defaults overlaid by the caller's map:
every caller entry `(k, v)` ends up as `CanonicalMIMEHeaderKey k = v`; each of
`Authorization`, `Content-Type`, `Accept` and `User-Agent` that no caller key
canonicalises to keeps its default (`Bearer <token>`, `application/json`,
`application/json, text/plain, */*`, `Terraform-Provider-CustomAPI/1.0`); and
every other name is as it was before. A caller `Authorization` in any letter
case therefore replaces the bearer header. -/
theorem setHeaders_overlay (req : HttpRequest) (custom : List (GoString × GoString))
    (token : GoString)
    (hnd : (custom.map (fun kv => CanonicalMIMEHeaderKey kv.1)).Nodup) :
    (∀ kv ∈ custom,
      Header.lookup (setHeaders req custom token).Header (CanonicalMIMEHeaderKey kv.1)
        = some [kv.2]) ∧
    (lit "Authorization" ∉ custom.map (fun kv => CanonicalMIMEHeaderKey kv.1) →
      Header.lookup (setHeaders req custom token).Header (lit "Authorization")
        = some [lit "Bearer " ++ token]) ∧
    (lit "Content-Type" ∉ custom.map (fun kv => CanonicalMIMEHeaderKey kv.1) →
      Header.lookup (setHeaders req custom token).Header (lit "Content-Type")
        = some [lit "application/json"]) ∧
    (lit "Accept" ∉ custom.map (fun kv => CanonicalMIMEHeaderKey kv.1) →
      Header.lookup (setHeaders req custom token).Header (lit "Accept")
        = some [lit "application/json, text/plain, */*"]) ∧
    (lit "User-Agent" ∉ custom.map (fun kv => CanonicalMIMEHeaderKey kv.1) →
      Header.lookup (setHeaders req custom token).Header (lit "User-Agent")
        = some [lit "Terraform-Provider-CustomAPI/1.0"]) ∧
    (∀ key, key ∉ custom.map (fun kv => CanonicalMIMEHeaderKey kv.1) →
      key ≠ lit "Authorization" → key ≠ lit "Content-Type" → key ≠ lit "Accept" →
      key ≠ lit "User-Agent" →
      Header.lookup (setHeaders req custom token).Header key = Header.lookup req.Header key) := by
  have c1 : CanonicalMIMEHeaderKey (lit "Authorization") = lit "Authorization" := by decide
  have c2 : CanonicalMIMEHeaderKey (lit "Content-Type") = lit "Content-Type" := by decide
  have c3 : CanonicalMIMEHeaderKey (lit "Accept") = lit "Accept" := by decide
  have c4 : CanonicalMIMEHeaderKey (lit "User-Agent") = lit "User-Agent" := by decide
  refine ⟨?_, ?_, ?_, ?_, ?_, ?_⟩
  · intro kv hkv
    exact lookup_overlay_mem custom _ hnd kv hkv
  · intro hk
    show Header.lookup (custom.foldl _ _) _ = _
    rw [lookup_overlay_other custom _ _ hk]
    simp only [lookup_Header_Set, c1, c2, c3, c4]
    have e1 : ¬ lit "User-Agent" = lit "Authorization" := by decide
    have e2 : ¬ lit "Accept" = lit "Authorization" := by decide
    have e3 : ¬ lit "Content-Type" = lit "Authorization" := by decide
    simp [e1, e2, e3]
  · intro hk
    show Header.lookup (custom.foldl _ _) _ = _
    rw [lookup_overlay_other custom _ _ hk]
    simp only [lookup_Header_Set, c1, c2, c3, c4]
    have e1 : ¬ lit "User-Agent" = lit "Content-Type" := by decide
    have e2 : ¬ lit "Accept" = lit "Content-Type" := by decide
    simp [e1, e2]
  · intro hk
    show Header.lookup (custom.foldl _ _) _ = _
    rw [lookup_overlay_other custom _ _ hk]
    simp only [lookup_Header_Set, c1, c2, c3, c4]
    have e1 : ¬ lit "User-Agent" = lit "Accept" := by decide
    simp [e1]
  · intro hk
    show Header.lookup (custom.foldl _ _) _ = _
    rw [lookup_overlay_other custom _ _ hk]
    simp only [lookup_Header_Set, c1, c2, c3, c4]
    simp
  · intro key hk h1 h2 h3 h4
    show Header.lookup (custom.foldl _ _) _ = _
    rw [lookup_overlay_other custom _ _ hk]
    simp only [lookup_Header_Set, c1, c2, c3, c4]
    simp [Ne.symm h1, Ne.symm h2, Ne.symm h3, Ne.symm h4]

/-- C11 on a caller map with a lower-case `authorization`: it replaces the
bearer header, while `Content-Type` keeps its default. -/
theorem setHeaders_overlay_witness :
    Header.lookup (setHeaders bareRequest callerHeaders (lit "abc123")).Header
        (lit "Authorization") = some [lit "Basic xyz"] ∧
    Header.lookup (setHeaders bareRequest callerHeaders (lit "abc123")).Header
        (lit "Content-Type") = some [lit "application/json"] :=
  have h := setHeaders_overlay bareRequest callerHeaders (lit "abc123") (by decide)
  ⟨h.1 (lit "authorization", lit "Basic xyz") (by decide), h.2.2.1 (by decide)⟩

/-! ### Query strings -/

theorem strLess_irrefl (a : GoString) : strLess a a = false := by
  induction a with
  | nil => rfl
  | cons x a ih => simp [strLess, ih]

theorem strLess_trans : ∀ (a b c : GoString),
    strLess a b = true → strLess b c = true → strLess a c = true
  | [], [], _, h, _ => by simp [strLess] at h
  | [], _ :: _, [], _, h => by simp [strLess] at h
  | [], _ :: _, _ :: _, _, _ => by simp [strLess]
  | _ :: _, [], _, h, _ => by simp [strLess] at h
  | _ :: _, _ :: _, [], _, h => by simp [strLess] at h
  | x :: a, y :: b, z :: c, h1, h2 => by
    simp only [strLess] at h1 h2 ⊢
    by_cases hxy : x.val < y.val
    · by_cases hyz : y.val < z.val
      · have : x.val < z.val := by omega
        simp [this]
      · by_cases hzy : z.val < y.val
        · simp [hyz, hzy] at h2
        · have : x.val < z.val := by omega
          simp [this]
    · by_cases hyx : y.val < x.val
      · simp [hxy, hyx] at h1
      · simp only [hxy, hyx, if_false] at h1
        by_cases hyz : y.val < z.val
        · have : x.val < z.val := by omega
          simp [this]
        · by_cases hzy : z.val < y.val
          · simp [hyz, hzy] at h2
          · simp only [hyz, hzy, if_false] at h2
            have e1 : ¬ x.val < z.val := by omega
            have e2 : ¬ z.val < x.val := by omega
            simp only [e1, e2, if_false]
            exact strLess_trans a b c h1 h2

theorem strLess_total : ∀ (a b : GoString), a ≠ b → strLess a b = false → strLess b a = true
  | [], [], h, _ => absurd rfl h
  | [], _ :: _, _, h => by simp [strLess] at h
  | _ :: _, [], _, _ => by simp [strLess]
  | x :: a, y :: b, hne, h => by
    simp only [strLess] at h ⊢
    by_cases hxy : x.val < y.val
    · simp [hxy] at h
    · by_cases hyx : y.val < x.val
      · simp [hyx]
      · simp only [hxy, hyx, if_false] at h ⊢
        have hxe : x = y := Fin.ext (by omega)
        have hab : a ≠ b := fun hab => hne (by rw [hxe, hab])
        exact strLess_total a b hab h

theorem strLess_asymm (a b : GoString) (h : strLess a b = true) : strLess b a = false := by
  cases hba : strLess b a with
  | false => rfl
  | true =>
    have := strLess_trans a b a h hba
    rw [strLess_irrefl] at this
    exact absurd this (by decide)

theorem insertPair_perm (e : GoString × GoString) (l : List (GoString × GoString)) :
    (insertPair e l).Perm (e :: l) := by
  induction l with
  | nil => exact List.Perm.refl _
  | cons x rest ih =>
    unfold insertPair
    by_cases h : strLess x.1 e.1 = true
    · simp only [h, if_true]
      exact (List.Perm.cons x ih).trans (List.Perm.swap e x rest)
    · simp only [h]
      exact List.Perm.refl _

theorem sortPairs_perm (l : List (GoString × GoString)) : (sortPairs l).Perm l := by
  induction l with
  | nil => exact List.Perm.refl _
  | cons e rest ih =>
    unfold sortPairs
    exact (insertPair_perm e (sortPairs rest)).trans (List.Perm.cons e ih)

theorem insertPair_sorted (e : GoString × GoString) (l : List (GoString × GoString))
    (hs : l.Pairwise (fun a b => strLess a.1 b.1 = true)) (hne : ∀ x ∈ l, x.1 ≠ e.1) :
    (insertPair e l).Pairwise (fun a b => strLess a.1 b.1 = true) := by
  induction l with
  | nil => simp [insertPair]
  | cons x rest ih =>
    rw [List.pairwise_cons] at hs
    unfold insertPair
    by_cases h : strLess x.1 e.1 = true
    · simp only [h, if_true]
      rw [List.pairwise_cons]
      refine ⟨?_, ih hs.2 (fun y hy => hne y (List.mem_cons_of_mem x hy))⟩
      intro y hy
      rcases List.mem_cons.mp ((insertPair_perm e rest).mem_iff.mp hy) with hy1 | hy1
      · rw [hy1]; exact h
      · exact hs.1 y hy1
    · rw [if_neg h]
      have hlt : strLess e.1 x.1 = true :=
        strLess_total x.1 e.1 (hne x (List.mem_cons_self x rest)) (by simpa using h)
      rw [List.pairwise_cons]
      refine ⟨?_, List.pairwise_cons.mpr hs⟩
      intro y hy
      rcases List.mem_cons.mp hy with hy1 | hy1
      · rw [hy1]; exact hlt
      · exact strLess_trans _ _ _ hlt (hs.1 y hy1)

theorem sortPairs_sorted (l : List (GoString × GoString)) (hnd : (l.map Prod.fst).Nodup) :
    (sortPairs l).Pairwise (fun a b => strLess a.1 b.1 = true) := by
  induction l with
  | nil => simp [sortPairs]
  | cons e rest ih =>
    simp only [List.map_cons, List.nodup_cons] at hnd
    unfold sortPairs
    apply insertPair_sorted e _ (ih hnd.2)
    intro x hx hxe
    have hx1 : x ∈ rest := (sortPairs_perm rest).mem_iff.mp hx
    exact hnd.1 (hxe ▸ List.mem_map_of_mem Prod.fst hx1)

theorem sortPairs_of_perm (l1 l2 : List (GoString × GoString)) (hp : l1.Perm l2)
    (hnd : (l2.map Prod.fst).Nodup) : sortPairs l1 = sortPairs l2 := by
  have hnd1 : (l1.map Prod.fst).Nodup := (hp.map Prod.fst).nodup_iff.mpr hnd
  haveI : IsAntisymm (GoString × GoString) (fun a b => strLess a.1 b.1 = true) :=
    ⟨fun a b h1 h2 => by
      rw [strLess_asymm a.1 b.1 h1] at h2
      exact absurd h2 (by decide)⟩
  exact List.eq_of_perm_of_sorted
    (((sortPairs_perm l1).trans hp).trans (sortPairs_perm l2).symm)
    (sortPairs_sorted l1 hnd1) (sortPairs_sorted l2 hnd)

theorem Values_Add_fresh (acc : Values) (k v : GoString) (hk : k ∉ acc.map Prod.fst) :
    Values.Add acc k v = acc ++ [(k, [v])] := by
  induction acc with
  | nil => rfl
  | cons e rest ih =>
    obtain ⟨k0, vs⟩ := e
    simp only [List.map_cons, List.mem_cons, not_or] at hk
    have h0 : ¬ k0 = k := fun h => hk.1 h.symm
    simp [Values.Add, h0, ih hk.2]

theorem foldl_Add_fresh (Q : List (GoString × GoString)) (acc : Values)
    (hnd : (Q.map Prod.fst).Nodup) (hdis : ∀ kv ∈ Q, kv.1 ∉ acc.map Prod.fst) :
    Q.foldl (fun p kv => Values.Add p kv.1 kv.2) acc
      = acc ++ Q.map (fun kv => (kv.1, [kv.2])) := by
  induction Q generalizing acc with
  | nil => simp
  | cons x rest ih =>
    simp only [List.map_cons, List.nodup_cons] at hnd
    simp only [List.foldl_cons, List.map_cons]
    rw [Values_Add_fresh acc x.1 x.2 (hdis x (List.mem_cons_self x rest))]
    rw [ih _ hnd.2]
    · simp
    · intro kv hkv hmem
      simp only [List.map_append, List.map_cons, List.map_nil, List.mem_append,
        List.mem_singleton] at hmem
      rcases hmem with hmem | hmem
      · exact hdis kv (List.mem_cons_of_mem x hkv) hmem
      · exact hnd.1 (hmem ▸ List.mem_map_of_mem Prod.fst hkv)

theorem insertEntry_map (e : GoString × GoString) (l : List (GoString × GoString)) :
    insertEntry (e.1, [e.2]) (l.map (fun kv => (kv.1, [kv.2])))
      = (insertPair e l).map (fun kv => (kv.1, [kv.2])) := by
  induction l with
  | nil => rfl
  | cons x rest ih =>
    simp only [List.map_cons, insertEntry, insertPair]
    by_cases h : strLess x.1 e.1 = true
    · simp [h, ih]
    · simp [h]

theorem sortEntries_map (l : List (GoString × GoString)) :
    sortEntries (l.map (fun kv => (kv.1, [kv.2])))
      = (sortPairs l).map (fun kv => (kv.1, [kv.2])) := by
  induction l with
  | nil => rfl
  | cons e rest ih =>
    simp only [List.map_cons, sortEntries, sortPairs]
    rw [ih, insertEntry_map]

theorem Encode_single_valued (l : List (GoString × GoString)) :
    Values.Encode (l.map (fun kv => (kv.1, [kv.2]))) = encQuery l := by
  unfold Values.Encode encodeSegments encQuery
  rw [sortEntries_map]
  congr 1
  induction sortPairs l with
  | nil => rfl
  | cons x rest ih => simp [List.flatMap_cons, ih]

theorem foldl_parseSegment_pairs (ps : List (GoString × GoString)) (m : Values)
    (err : Option GoString) :
    (ps.map (fun kv => QueryEscape kv.1 ++ (61 : Byte) :: QueryEscape kv.2)).foldl
        (fun acc seg => parseSegment acc.1 acc.2 seg) (m, err)
      = (ps.foldl (fun p kv => Values.Add p kv.1 kv.2) m, err) := by
  induction ps generalizing m with
  | nil => rfl
  | cons x rest ih =>
    simp only [List.map_cons, List.foldl_cons, parseSegment_pair]
    exact ih _

theorem ParseQuery_joinAmp_pairs (ps : List (GoString × GoString)) :
    ParseQuery (joinAmp (ps.map (fun kv => QueryEscape kv.1 ++ (61 : Byte) :: QueryEscape kv.2)))
      = (ps.foldl (fun p kv => Values.Add p kv.1 kv.2) [], none) := by
  cases ps with
  | nil => rfl
  | cons x rest =>
    unfold ParseQuery
    rw [splitByte_joinAmp _ (by simp)]
    · exact foldl_parseSegment_pairs (x :: rest) [] none
    · intro s hs
      obtain ⟨kv, _, rfl⟩ := List.mem_map.mp hs
      exact segment_no_amp _ _

/-- C12: for a non-empty base URL `B`, `buildURL` returns `B ++ P` when the
query map is empty and `B ++ P ++ "?" ++ enc(Q)` otherwise, where `enc(Q)` is
the percent-encoded `key=value` pairs joined by `&` in ascending key order
(`sortPairs Q` is a permutation of `Q` sorted by key). The result is the same
for every order in which the map is visited, and `url.ParseQuery` of `enc(Q)`
returns exactly the pairs of `Q`, each key with its one value, and no error. -/
theorem buildURL_query (w : World) (c : Client) (P : GoString) (Q : List (GoString × GoString))
    (hB : c.baseURL ≠ []) (hQ : (Q.map Prod.fst).Nodup) :
    (Q = [] → buildURL w c P Q = .returned (c.baseURL ++ P)) ∧
    (Q ≠ [] → buildURL w c P Q = .returned (c.baseURL ++ P ++ lit "?" ++ encQuery Q)) ∧
    (∀ Q2 : List (GoString × GoString), Q2.Perm Q → buildURL w c P Q2 = buildURL w c P Q) ∧
    (sortPairs Q).Perm Q ∧
    (sortPairs Q).Pairwise (fun a b => strLess a.1 b.1 = true) ∧
    ParseQuery (encQuery Q) = ((sortPairs Q).map (fun kv => (kv.1, [kv.2])), none) := by
  have hbuild : ∀ R : List (GoString × GoString), (R.map Prod.fst).Nodup → R ≠ [] →
      buildURL w c P R = .returned (c.baseURL ++ P ++ lit "?" ++ encQuery R) := by
    intro R hR hne
    have hlen : R.length > 0 := List.length_pos.mpr hne
    have hfold : R.foldl (fun p kv => Values.Add p kv.1 kv.2) ([] : Values)
        = R.map (fun kv => (kv.1, [kv.2])) := by
      rw [foldl_Add_fresh R [] hR (by simp)]
      simp
    simp only [buildURL, Client.GetBaseURL, hB, if_false, hlen, if_true, hfold,
      Encode_single_valued]
  refine ⟨?_, hbuild Q hQ, ?_, sortPairs_perm Q, sortPairs_sorted Q hQ, ?_⟩
  · intro h
    subst h
    simp [buildURL, Client.GetBaseURL, hB]
  · intro Q2 hp
    by_cases hne : Q = []
    · subst hne
      rw [List.Perm.eq_nil hp]
    · have hne2 : Q2 ≠ [] := fun h => hne (by rw [h] at hp; exact (List.Perm.nil_eq hp).symm)
      have hQ2 : (Q2.map Prod.fst).Nodup := (hp.map Prod.fst).nodup_iff.mpr hQ
      rw [hbuild Q hQ hne, hbuild Q2 hQ2 hne2]
      unfold encQuery
      rw [sortPairs_of_perm Q2 Q hp hQ]
  · unfold encQuery
    rw [ParseQuery_joinAmp_pairs]
    have hnd : ((sortPairs Q).map Prod.fst).Nodup :=
      ((sortPairs_perm Q).map Prod.fst).nodup_iff.mpr hQ
    rw [foldl_Add_fresh (sortPairs Q) [] hnd (by simp)]
    simp

/-- C12 on a three-entry query map: the URL is the same for two visiting
orders, with the keys in ascending order and the values percent-encoded. -/
theorem buildURL_query_witness :
    buildURL worldEcho staticClient (lit "/api/things") queryOne
      = .returned (lit "https://api.example.com/api/things?filter=x%3Dy&page=2&q=a+b%26c") ∧
    buildURL worldEcho staticClient (lit "/api/things") queryTwo
      = buildURL worldEcho staticClient (lit "/api/things") queryOne :=
  have h := buildURL_query worldEcho staticClient (lit "/api/things") queryOne
    (by decide) (by decide)
  ⟨(h.2.1 (by decide)).trans (by decide), h.2.2.1 queryTwo (by decide)⟩

/-! ### Failure paths of `MakeRequest` -/

/-- C13 (amended): when `GetToken` has succeeded, the client's base URL is
empty and `CUSTOMAPI_BASE_URL` is empty in the environment, `MakeRequest`
panics with `CUSTOMAPI_BASE_URL environment variable is required`; nothing is
sent beyond what `GetToken` sent. -/
theorem MakeRequest_missing_baseURL (w : World) (c : Client) (n n1 : Net)
    (req : CustomAPIRequest) (token : GoString) (ac1 : AuthClient)
    (hB : c.baseURL = []) (henv : w.getenv (lit "CUSTOMAPI_BASE_URL") = [])
    (htok : GetToken w c.authClient n = ((token, none), ac1, n1)) :
    MakeRequest w c n req =
      (.panicked (lit "CUSTOMAPI_BASE_URL environment variable is required"),
        { c with authClient := ac1 }, n1) := by
  unfold MakeRequest
  rw [htok]
  simp [buildURL, Client.GetBaseURL, hB, LoadConfig, getEnvOrDefault, henv]

/-- C13 (amended) on a client with a static token, no base URL and an empty
environment: the call panics and the list of requests sent stays empty. -/
theorem MakeRequest_missing_baseURL_witness :
    MakeRequest worldEcho noBaseClient Net.start (postRequest []) =
      (.panicked (lit "CUSTOMAPI_BASE_URL environment variable is required"),
        noBaseClient, Net.start) :=
  MakeRequest_missing_baseURL worldEcho noBaseClient Net.start Net.start (postRequest [])
    (lit "abc123") noBaseClient.authClient rfl rfl rfl

/-- C13 as stated fails: with a static token, no base URL on the client and
none in the environment, `MakeRequest` does not return a nil envelope with an
error; it panics. -/
theorem MakeRequest_missing_baseURL_panics :
    (MakeRequest worldEcho noBaseClient Net.start (postRequest bodySpaced)).1 =
      .panicked (lit "CUSTOMAPI_BASE_URL environment variable is required") ∧
    ¬ ∃ e, (MakeRequest worldEcho noBaseClient Net.start (postRequest bodySpaced)).1 =
      .returned (none, some e) := by
  have h : (MakeRequest worldEcho noBaseClient Net.start (postRequest bodySpaced)).1 =
      .panicked (lit "CUSTOMAPI_BASE_URL environment variable is required") := by decide
  refine ⟨h, ?_⟩
  rintro ⟨e, he⟩
  rw [h] at he
  exact Outcome.noConfusion he

/-- C15: if `GetToken` fails with error `err`, `MakeRequest` returns a nil
envelope and the error `failed to get auth token: <err>`, which contains
`err`; the requests sent are exactly those `GetToken` sent, so no proxied
request is built or sent. -/
theorem MakeRequest_token_failure (w : World) (c : Client) (n n1 : Net)
    (req : CustomAPIRequest) (token err : GoString) (ac1 : AuthClient)
    (htok : GetToken w c.authClient n = ((token, some err), ac1, n1)) :
    MakeRequest w c n req =
      (.returned (none, some (lit "failed to get auth token: " ++ err)),
        { c with authClient := ac1 }, n1) ∧
    Contains (lit "failed to get auth token: " ++ err) err ∧
    (MakeRequest w c n req).2.2.sent = (GetToken w c.authClient n).2.2.sent := by
  have h : MakeRequest w c n req =
      (.returned (none, some (lit "failed to get auth token: " ++ err)),
        { c with authClient := ac1 }, n1) := by
    unfold MakeRequest
    rw [htok]
  refine ⟨h, ⟨lit "failed to get auth token: ", [], by simp⟩, ?_⟩
  rw [h, htok]

/-- C15 on Scenario C: the 401 of the token endpoint and its body are visible
in the error of `MakeRequest`, and the only request sent is the
authentication request. -/
theorem MakeRequest_token_failure_witness :
    (MakeRequest worldC pwProxyClient Net.start (postRequest bodySpaced)).1 =
      .returned (none, some (lit "failed to get auth token: authentication failed with status: 401, body: \x7b\"error\":\"invalid_grant\"\x7d")) ∧
    (MakeRequest worldC pwProxyClient Net.start (postRequest bodySpaced)).2.2.sent.length = 1 :=
  have h := MakeRequest_token_failure worldC pwProxyClient Net.start
    (GetToken worldC pwProxyClient.authClient Net.start).2.2 (postRequest bodySpaced) []
    (lit "authentication failed with status: 401, body: \x7b\"error\":\"invalid_grant\"\x7d")
    pwProxyClient.authClient (by decide)
  ⟨(congrArg (fun r => r.1) h.1).trans (by decide), by rw [h.2.2]; decide⟩

/-- C16 (amended): when the body of the proxied response cannot be read in
full, `MakeRequest` still returns a nil error and an envelope; the envelope's
`Body` is the text `Failed to read response body: ` followed by the read
error, the bytes read so far are dropped, and `StatusCode` and `Success`
follow the status as usual. -/
theorem MakeRequest_unreadable_body (w : World) (c : Client) (n n1 : Net)
    (req : CustomAPIRequest) (token : GoString) (ac1 : AuthClient) (fullURL : GoString)
    (httpReq : HttpRequest) (resp : HttpResponse) (rerr : GoString)
    (htok : GetToken w c.authClient n = ((token, none), ac1, n1))
    (hurl : buildURL w { c with authClient := ac1 } req.URL req.QueryParams = .returned fullURL)
    (hreq : createRequest w req.Method fullURL (requestData req) = .returned (.ok httpReq))
    (hresp : w.roundTrip n1.sent.length (setHeaders httpReq req.Headers token) = .ok resp)
    (hread : resp.Body.readErr = some rerr) :
    ∃ env : CustomAPIResponse,
      (MakeRequest w c n req).1 = .returned (some env, none) ∧
      env.Body = lit "Failed to read response body: " ++ rerr ∧
      env.StatusCode = resp.StatusCode ∧
      env.Success = decide (200 ≤ resp.StatusCode ∧ resp.StatusCode < 300) := by
  refine ⟨buildResponse resp, ?_, ?_, ?_, ?_⟩
  · unfold MakeRequest
    rw [htok]
    simp only [hurl, hreq, Do, hresp]
  · by_cases h : 200 ≤ resp.StatusCode ∧ resp.StatusCode < 300
    · simp [buildResponse, respToString, ReadAll, hread, h]
    · simp [buildResponse, respToString, ReadAll, hread, h]
  · by_cases h : 200 ≤ resp.StatusCode ∧ resp.StatusCode < 300
    · simp [buildResponse, h]
    · simp [buildResponse, h]
  · by_cases h : 200 ≤ resp.StatusCode ∧ resp.StatusCode < 300
    · simp [buildResponse, h]
    · simp [buildResponse, h]

/-- C16 (amended) on a response that breaks off with `unexpected EOF`. -/
theorem MakeRequest_unreadable_body_witness :
    ∃ env : CustomAPIResponse,
      (MakeRequest worldReadFail staticClient Net.start (postRequest [])).1
        = .returned (some env, none) ∧
      env.Body = lit "Failed to read response body: unexpected EOF" :=
  have ⟨env, h1, h2, _, _⟩ := MakeRequest_unreadable_body worldReadFail staticClient Net.start
    Net.start (postRequest []) (lit "abc123") staticClient.authClient
    (lit "https://api.example.com/api/things")
    { Method := lit "POST", URL := lit "https://api.example.com/api/things", Header := [],
      Body := none }
    { StatusCode := 200, Header := [], Body := ⟨lit "\x7b\"id\":", some (lit "unexpected EOF")⟩ }
    (lit "unexpected EOF") rfl rfl rfl rfl rfl
  ⟨env, h1, h2.trans (by decide)⟩

/-- C16 as stated fails: the response breaks off with `unexpected EOF` after
the bytes `{"id":`, and `MakeRequest` returns a nil error with a successful
envelope whose `Body` is the read-failure message. -/
theorem MakeRequest_folds_read_error :
    (MakeRequest worldReadFail staticClient Net.start (postRequest [])).1 =
      .returned (some { StatusCode := 200, Headers := [],
                        Body := lit "Failed to read response body: unexpected EOF",
                        Success := true, Error := [] }, none) := by
  decide

/-- C17: when the proxied response has status 401, `MakeRequest` returns a nil
error and an envelope with `StatusCode = 401`, `Success = false` and `Error =
"Request failed with status 401"`; the one proxied request is the only thing
sent after `GetToken`, and the `AuthClient` is left exactly as `GetToken` left
it. -/
theorem MakeRequest_unauthorized (w : World) (c : Client) (n n1 : Net)
    (req : CustomAPIRequest) (token : GoString) (ac1 : AuthClient) (fullURL : GoString)
    (httpReq : HttpRequest) (resp : HttpResponse)
    (htok : GetToken w c.authClient n = ((token, none), ac1, n1))
    (hurl : buildURL w { c with authClient := ac1 } req.URL req.QueryParams = .returned fullURL)
    (hreq : createRequest w req.Method fullURL (requestData req) = .returned (.ok httpReq))
    (hresp : w.roundTrip n1.sent.length (setHeaders httpReq req.Headers token) = .ok resp)
    (h401 : resp.StatusCode = 401) :
    MakeRequest w c n req =
      (.returned (some (buildResponse resp), none), { c with authClient := ac1 },
        { n1 with sent := n1.sent ++ [setHeaders httpReq req.Headers token] }) ∧
    (buildResponse resp).StatusCode = 401 ∧
    (buildResponse resp).Success = false ∧
    (buildResponse resp).Error = lit "Request failed with status 401" ∧
    (MakeRequest w c n req).2.1.authClient = (GetToken w c.authClient n).2.1 := by
  have h : MakeRequest w c n req =
      (.returned (some (buildResponse resp), none), { c with authClient := ac1 },
        { n1 with sent := n1.sent ++ [setHeaders httpReq req.Headers token] }) := by
    unfold MakeRequest
    rw [htok]
    simp only [hurl, hreq, Do, hresp]
  refine ⟨h, ?_, ?_, ?_, ?_⟩
  · simp [buildResponse, h401]
  · simp [buildResponse, h401]
  · have hmsg : lit "Request failed with status " ++ fmtInt 401
        = lit "Request failed with status 401" := by decide
    simp [buildResponse, h401, hmsg]
  · rw [h, htok]

/-- C17 with a cached, still valid token: the 401 comes back as an envelope,
one request is sent, and the cached token and expiry are untouched. -/
theorem MakeRequest_unauthorized_witness :
    (MakeRequest world401
      { pwProxyClient with authClient := { pwClient with token := lit "tok1", expiresAt := 5 } }
      Net.start (postRequest [])).2 =
      ({ pwProxyClient with authClient := { pwClient with token := lit "tok1", expiresAt := 5 } },
        { ticks := 1,
          sent := [setHeaders
            { Method := lit "POST", URL := lit "https://api.example.com/api/things",
              Header := [], Body := none } [] (lit "tok1")] }) :=
  have h := MakeRequest_unauthorized world401
    { pwProxyClient with authClient := { pwClient with token := lit "tok1", expiresAt := 5 } }
    Net.start { ticks := 1, sent := [] } (postRequest []) (lit "tok1")
    { pwClient with token := lit "tok1", expiresAt := 5 }
    (lit "https://api.example.com/api/things")
    { Method := lit "POST", URL := lit "https://api.example.com/api/things", Header := [],
      Body := none }
    { StatusCode := 401, Header := [], Body := ⟨lit "\x7b\"error\":\"expired\"\x7d", none⟩ }
    rfl rfl rfl rfl rfl
  (congrArg (fun r => r.2) h.1).trans (by decide)

/-! ### Resource wrappers -/

/-- C14: `CreateResource`, `ReadResource`, `UpdateResource` and
`DeleteResource` return exactly what `MakeRequest` returns on a request with
method `POST`, `GET`, `PUT`, `DELETE`, the endpoint as URL, no query, the
serialization of `data` as body for Create/Update and no body for
Read/Delete, and a header map that holds `current-organization = org_id` when
`org_id` is non-empty and has no such key when it is empty. When `data`
cannot be serialized, Create/Update return the serialization error and send
nothing. -/
theorem resource_wrappers {Data : Type} (jsonMarshal : Data → Except GoString GoString)
    (w : World) (c : Client) (n : Net) (endpoint : GoString) (data : Data) (orgID : GoString) :
    ∃ hdrs : List (GoString × GoString),
      (orgID ≠ [] → mapLookup hdrs (lit "current-organization") = some orgID) ∧
      (orgID = [] → mapLookup hdrs (lit "current-organization") = none) ∧
      mapLookup hdrs (lit "Accept") = some (lit "application/json") ∧
      (∀ body, jsonMarshal data = .ok body →
        CreateResource jsonMarshal w c n endpoint data orgID =
          MakeRequest w c n { Method := lit "POST", URL := endpoint, Headers := hdrs,
                              Body := body, QueryParams := [] }) ∧
      (∀ body, jsonMarshal data = .ok body →
        UpdateResource jsonMarshal w c n endpoint data orgID =
          MakeRequest w c n { Method := lit "PUT", URL := endpoint, Headers := hdrs,
                              Body := body, QueryParams := [] }) ∧
      ReadResource w c n endpoint orgID =
        MakeRequest w c n { Method := lit "GET", URL := endpoint, Headers := hdrs,
                            Body := [], QueryParams := [] } ∧
      DeleteResource w c n endpoint orgID =
        MakeRequest w c n { Method := lit "DELETE", URL := endpoint, Headers := hdrs,
                            Body := [], QueryParams := [] } ∧
      (∀ err, jsonMarshal data = .error err →
        CreateResource jsonMarshal w c n endpoint data orgID =
          (.returned (none, some (lit "failed to marshal request data: " ++ err)), c, n) ∧
        UpdateResource jsonMarshal w c n endpoint data orgID =
          (.returned (none, some (lit "failed to marshal request data: " ++ err)), c, n)) := by
  have hk : ¬ lit "Accept" = lit "current-organization" := by decide
  by_cases ho : orgID = []
  · refine ⟨[(lit "Accept", lit "application/json")], ?_, ?_, ?_, ?_, ?_, ?_, ?_, ?_⟩
    · intro h; exact absurd ho h
    · intro _; simp [mapLookup, hk]
    · simp [mapLookup]
    · intro body hb; simp [CreateResource, hb, ho]
    · intro body hb; simp [UpdateResource, hb, ho]
    · simp [ReadResource, ho]
    · simp [DeleteResource, ho]
    · intro err he; simp [CreateResource, UpdateResource, he]
  · refine ⟨[(lit "Accept", lit "application/json"), (lit "current-organization", orgID)],
      ?_, ?_, ?_, ?_, ?_, ?_, ?_, ?_⟩
    · intro _; simp [mapLookup, hk]
    · intro h; exact absurd h ho
    · simp [mapLookup]
    · intro body hb; simp [CreateResource, hb, ho]
    · intro body hb; simp [UpdateResource, hb, ho]
    · simp [ReadResource, ho]
    · simp [DeleteResource, ho]
    · intro err he; simp [CreateResource, UpdateResource, he]

/-- C14 on `CreateResource` with data `x` and an empty org id: the call is
`MakeRequest` on a POST whose body is the serialization `"x"` and whose header
map has no `current-organization` key. -/
theorem resource_wrappers_witness :
    ∃ hdrs : List (GoString × GoString),
      mapLookup hdrs (lit "current-organization") = none ∧
      CreateResource marshalText worldEcho staticClient Net.start (lit "/api/things") (lit "x") []
        = MakeRequest worldEcho staticClient Net.start
            { Method := lit "POST", URL := lit "/api/things", Headers := hdrs,
              Body := lit "\"x\"", QueryParams := [] } :=
  have ⟨hdrs, _, h2, _, h4, _, _, _, _⟩ :=
    resource_wrappers marshalText worldEcho staticClient Net.start (lit "/api/things") (lit "x") []
  ⟨hdrs, h2 rfl, h4 (lit "\"x\"") rfl⟩

/-- Scenario D: `ReadResource` for org `org-9` sends one GET carrying
`Current-Organization: org-9` and the bearer token, and the 200 answer comes
back as a successful envelope with no error text. -/
theorem ReadResource_scenario_D :
    (ReadResource worldEcho staticClient Net.start (lit "/api/users/profile/me") (lit "org-9")).1
      = .returned (some { StatusCode := 200, Headers := [], Body := [], Success := true,
                          Error := [] }, none) ∧
    (ReadResource worldEcho staticClient Net.start (lit "/api/users/profile/me")
        (lit "org-9")).2.2.sent.map
      (fun r => (r.Method, Header.lookup r.Header (lit "Current-Organization"),
        Header.lookup r.Header (lit "Authorization")))
      = [(lit "GET", some [lit "org-9"], some [lit "Bearer abc123"])] := by
  constructor <;> decide

/-! ### Empty access token -/

/-- C19 at the failing input: the token endpoint answers 200 with the payload
`{}`. With no static token, `GetToken` returns the empty string as the token
with a nil error, and the empty token and an expiry equal to the clock reading
are cached. -/
theorem GetToken_empty_object_succeeds :
    (GetToken worldEmptyObject pwClient Net.start).1 = ([], none) ∧
    (GetToken worldEmptyObject pwClient Net.start).2.1 =
      { pwClient with token := [], expiresAt := 1700000000000000000 } ∧
    (GetToken worldEmptyObject pwClient Net.start).2.2.sent.length = 1 := by
  refine ⟨?_, ?_, ?_⟩ <;> decide

/-- The part of C19 that the code does meet: when the payload of a 200 answer
cannot be decoded, `authenticateWithCredentials` fails with `failed to decode
token response: <err>` and leaves the client as it was. -/
theorem authenticate_decode_failure (w : World) (ac : AuthClient) (n : Net) (req : HttpRequest)
    (resp : HttpResponse) (err : GoString)
    (hreq : authRequest w ac = .ok req) (hresp : w.roundTrip n.sent.length req = .ok resp)
    (h200 : resp.StatusCode = 200) (hdec : w.decodeToken resp.Body = .error err) :
    authenticateWithCredentials w ac n =
      (([], some (lit "failed to decode token response: " ++ err)), ac,
        { n with sent := n.sent ++ [req] }) := by
  simp [authenticateWithCredentials, hreq, Do, hresp, h200, hdec]

/-! ### The wrapped expiry seen from the cache -/

/-- The overflow of C3 as the cache sees it: after `tok1` with
`expires_in = 9223372037` is obtained, the `GetToken` that follows at the same
clock reading finds the token expired and sends a second request. -/
theorem GetToken_after_wrapped_expiry_sends_again :
    (authenticateWithCredentials worldHugeExpiry pwClient Net.start).1 = (lit "tok1", none) ∧
    (authenticateWithCredentials worldHugeExpiry pwClient Net.start).2.2.sent.length = 1 ∧
    (GetToken worldHugeExpiry (authenticateWithCredentials worldHugeExpiry pwClient Net.start).2.1
        (authenticateWithCredentials worldHugeExpiry pwClient Net.start).2.2).2.2.sent.length
      = 2 := by
  refine ⟨?_, ?_, ?_⟩ <;> decide

end CustomAPI
